import Mathlib

/-!
Verification of the SafeSite pipeline (three AWS Lambda handlers:
`SafeSite-Inference-Caller.py`, `SafeSite-outlier-detector.py`,
`SafeSite-fetch-outlier.py`) against its natural-language specification.

The Python sources are shallowly embedded: every Python function that a claim
touches is translated to an executable Lean definition; the external
collaborators (object store, inference endpoint, table store, image library)
are passed in as explicit oracle records whose calls return `Except`, so that
"the call raised" is `.error` and per-item exception handling is ordinary
pattern matching.  Python strings are Lean `String`s, but every string
operation is re-implemented structurally over `String.data` (the builtin
`String.replace`, `splitOn`, ... are compiled from well-founded loops and do
not reduce in the kernel). Python floats are identified with the exact rational
value of their shortest round-trip decimal representation `repr(x)` (CPython
guarantees `float(repr(x)) == x`, and `repr` is injective on floats, so this
identification is faithful); `decimal.Decimal(str(x))` holds exactly that
value, so the float-to-decimal conversion is value-preserving in the model.
`urllib.parse.unquote_plus` percent-decoding is elided: keys and URIs are taken
as already-decoded strings (no claim involves percent-encoded input).
-/

namespace PyStr

/-- Python `str.split(sep)` for a one-character separator, on char lists:
`"a,,b".split(",") = ["a","","b"]`, `"".split(",") = [""]`. -/
def splitCharL (sep : Char) : List Char → List (List Char)
  | [] => [[]]
  | c :: cs =>
    let r := splitCharL sep cs
    if c = sep then [] :: r
    else
      match r with
      | [] => [[c]]
      | h :: t => (c :: h) :: t

/-- Python `str.split(sep)` for a one-character separator. -/
def splitChar (sep : Char) (s : String) : List String :=
  (splitCharL sep s.data).map (fun l => (⟨l⟩ : String))

/-- Python `str.lower()` (ASCII case folding; the labels and config values in
scope are ASCII). -/
def lower (s : String) : String := ⟨s.data.map Char.toLower⟩

/-- Python `str.strip()` on char lists: drop leading and trailing whitespace. -/
def stripL (l : List Char) : List Char :=
  ((l.dropWhile Char.isWhitespace).reverse.dropWhile Char.isWhitespace).reverse

/-- Python `str.strip()`. -/
def pyStrip (s : String) : String := ⟨stripL s.data⟩

/-- Python `str.strip('/')`: drop leading and trailing `'/'` characters. -/
def stripSlashes (s : String) : String :=
  ⟨((s.data.dropWhile (· = '/')).reverse.dropWhile (· = '/')).reverse⟩

/-- Python `str.startswith(pre)`. -/
def pyStartsWith (s pre : String) : Bool := pre.data.isPrefixOf s.data

/-- Python `str.endswith(suf)`. -/
def pyEndsWith (s suf : String) : Bool := suf.data.isSuffixOf s.data

/-- One scanning pass of Python `str.replace`: leftmost-first, non-overlapping,
every occurrence.  The fuel argument is only there to make the recursion
structural (each step consumes at least one character when `pat` is nonempty,
so `fuel = l.length` never runs out); the sources never call `replace` with an
empty pattern. -/
def replaceFuel (pat rep : List Char) : Nat → List Char → List Char
  | 0, l => l
  | _ + 1, [] => []
  | fuel + 1, c :: cs =>
    if pat.isPrefixOf (c :: cs) then
      rep ++ replaceFuel pat rep fuel (List.drop pat.length (c :: cs))
    else
      c :: replaceFuel pat rep fuel cs

/-- Python `s.replace(pat, rep)` (all occurrences). -/
def pyReplace (s pat rep : String) : String :=
  ⟨replaceFuel pat.data rep.data s.data.length s.data⟩

/-- Split a char list at the first occurrence of `pat` (the occurrence is
dropped); `none` when `pat` does not occur.  Used to model `urlparse`. -/
def splitOnceSub (pat : List Char) : List Char → Option (List Char × List Char)
  | [] => none
  | c :: cs =>
    if pat.isPrefixOf (c :: cs) then some ([], List.drop pat.length (c :: cs))
    else
      match splitOnceSub pat cs with
      | some (pre, post) => some (c :: pre, post)
      | none => none

/-- Substring occurrence test (Python `pat in s` on char lists). -/
def isInfixL (pat : List Char) : List Char → Bool
  | [] => pat.isEmpty
  | c :: cs => pat.isPrefixOf (c :: cs) || isInfixL pat cs

/-- Python `pat in s` (substring containment). -/
def containsSub (s pat : String) : Bool := isInfixL pat.data s.data

/-- Truthiness of an optional Python string (`None` and `""` are falsy). -/
def pyTruthyOptStr : Option String → Bool
  | Option.none => false
  | Option.some s => s != ""

/-- Value of a list of decimal digit characters (`int()` of a digit run). -/
def digitsVal (l : List Char) : Nat :=
  l.foldl (fun a c => a * 10 + (c.toNat - '0'.toNat)) 0

/-- Python `int(s)`: optional surrounding whitespace, optional sign, then a
nonempty run of decimal digits; `none` models `ValueError`.  (Underscore
grouping and non-ASCII digits are out of scope.) -/
def pyIntOfStr (s : String) : Option Int :=
  match stripL s.data with
  | '-' :: ds =>
    if !ds.isEmpty && ds.all Char.isDigit then some (-(digitsVal ds : Int)) else none
  | '+' :: ds =>
    if !ds.isEmpty && ds.all Char.isDigit then some (digitsVal ds : Int) else none
  | ds =>
    if !ds.isEmpty && ds.all Char.isDigit then some (digitsVal ds : Int) else none

/-- Join path components with `'/'` (models `str(PurePosixPath(*parts))` for
the relative, slash-free components produced by the handlers). -/
def joinPath : List String → String
  | [] => ""
  | [p] => p
  | p :: ps => p ++ "/" ++ joinPath ps

/-- Models `urlparse` + `.path.lstrip('/')` for locator strings: split at the
first `"://"`, the authority runs to the next `'/'`, the rest (leading slashes
stripped) is the key.  A string with no `"://"` parses to an empty authority,
exactly as `urlparse` gives `netloc = ''` for scheme-less strings.
Percent-decoding (`unquote_plus`) is elided. -/
def s3UriBucketKey (uri : String) : String × String :=
  match splitOnceSub "://".data uri.data with
  | some (_, rest) =>
    match splitOnceSub ['/'] rest with
    | some (host, path) => (⟨host⟩, ⟨path.dropWhile (· = '/')⟩)
    | none => (⟨rest⟩, "")
  | none => ("", ⟨uri.data.dropWhile (· = '/')⟩)

end PyStr

namespace FrameNum

/-- First maximal contiguous run of decimal digits in a char list, if any
(the captured group of `re.search(r'(\d+)', s)`). -/
def firstDigitRun : List Char → Option (List Char)
  | [] => none
  | c :: cs =>
    if c.isDigit then some (c :: cs.takeWhile Char.isDigit)
    else firstDigitRun cs

/-- `extract_frame_number` of `SafeSite-Inference-Caller.py`:
`re.search(r'(\d+)', frame_file)`, `int` of the first digit run, `0` when the
filename has no digits.  (The `try/except` around it cannot fire in the
model: every step is total.) -/
def extract_frame_number_caller (frame_file : String) : Nat :=
  match firstDigitRun frame_file.data with
  | some ds => PyStr.digitsVal ds
  | none => 0

/-- Match of `frame[_-]?(\d+)` (with `re.IGNORECASE`) anchored at the head of
the char list: a case-insensitive literal `frame`, at most one `'_'` or `'-'`,
then the captured maximal digit run.  The optional separator backtracks as the
regex engine does: if a separator is present it must be followed by a digit
(`\d+` cannot match the separator itself). -/
def frameTokenAt : List Char → Option (List Char)
  | f :: r :: a :: m :: e :: rest =>
    if f.toLower = 'f' && r.toLower = 'r' && a.toLower = 'a'
        && m.toLower = 'm' && e.toLower = 'e' then
      match rest with
      | [] => none
      | c :: cs =>
        if c = '_' || c = '-' then
          match cs with
          | [] => none
          | d :: ds =>
            if d.isDigit then some (d :: ds.takeWhile Char.isDigit) else none
        else if c.isDigit then some (c :: cs.takeWhile Char.isDigit)
        else none
    else none
  | _ => none

/-- Leftmost match of `frame[_-]?(\d+)`: `re.search` tries each start
position left to right. -/
def frameSearch : List Char → Option (List Char)
  | [] => none
  | c :: cs =>
    match frameTokenAt (c :: cs) with
    | some ds => some ds
    | none => frameSearch cs

/-- `extract_frame_number` of `SafeSite-outlier-detector.py`:
`re.search(r'frame[_-]?(\d+)', frame_filename, re.IGNORECASE)`, `int` of the
captured digits, `None` when the pattern does not occur. -/
def extract_frame_number_det (frame_filename : String) : Option Nat :=
  (frameSearch frame_filename.data).map PyStr.digitsVal

/-- Specification-side reading of the pattern `frame[_-]?(\d+)` (stated from
the regex's meaning, independently of `frameTokenAt`): the char list begins
with a case-insensitive literal `frame` token, at most one `'_'` or `'-'`
separator, and then at least one decimal digit. -/
def FrameTokenHead (l : List Char) : Prop :=
  ∃ f r a m e sep d rest,
    l = f :: r :: a :: m :: e :: (sep ++ d :: rest)
    ∧ f.toLower = 'f' ∧ r.toLower = 'r' ∧ a.toLower = 'a'
    ∧ m.toLower = 'm' ∧ e.toLower = 'e'
    ∧ (sep = [] ∨ sep = ['_'] ∨ sep = ['-'])
    ∧ d.isDigit = true

end FrameNum

namespace Py

/-- Dynamic Python values as they occur in the JSON-shaped records the
handlers move around.  A `float x` is a Python float identified with the exact
rational value of its shortest round-trip `repr` (see the file header);
`dec x` is a `decimal.Decimal` holding the value `x`. -/
inductive PyVal where
  | float (x : Rat)
  | dec (x : Rat)
  | int (n : Int)
  | str (s : String)
  | bool (b : Bool)
  | none
  | list (xs : List PyVal)
  | dict (kvs : List (String × PyVal))

mutual

/-- `floats_to_decimals` of `SafeSite-outlier-detector.py`: recursively turn
every float in a dict or list into a `Decimal(str(x))`; everything else passes
through unchanged.  (`str(x)` is the shortest repr of the float `x`, so under
the representation above the produced decimal carries exactly the value
identified with `x`.) -/
def floats_to_decimals : PyVal → PyVal
  | .list xs => .list (floats_to_decimalsList xs)
  | .dict kvs => .dict (floats_to_decimalsDict kvs)
  | .float x => .dec x
  | v => v

/-- `[floats_to_decimals(i) for i in obj]`. -/
def floats_to_decimalsList : List PyVal → List PyVal
  | [] => []
  | v :: vs => floats_to_decimals v :: floats_to_decimalsList vs

/-- `{k: floats_to_decimals(v) for k, v in obj.items()}`. -/
def floats_to_decimalsDict : List (String × PyVal) → List (String × PyVal)
  | [] => []
  | (k, v) :: kvs => (k, floats_to_decimals v) :: floats_to_decimalsDict kvs

end

mutual

/-- No native Python float anywhere in the value. -/
def noFloat : PyVal → Bool
  | .float _ => false
  | .list xs => noFloatList xs
  | .dict kvs => noFloatDict kvs
  | _ => true

def noFloatList : List PyVal → Bool
  | [] => true
  | v :: vs => noFloat v && noFloatList vs

def noFloatDict : List (String × PyVal) → Bool
  | [] => true
  | (_, v) :: kvs => noFloat v && noFloatDict kvs

end

mutual

/-- No `Decimal` anywhere in the value (true of every record before
conversion: the endpoint JSON deserializes numbers to floats/ints). -/
def noDec : PyVal → Bool
  | .dec _ => false
  | .list xs => noDecList xs
  | .dict kvs => noDecDict kvs
  | _ => true

def noDecList : List PyVal → Bool
  | [] => true
  | v :: vs => noDec v && noDecList vs

def noDecDict : List (String × PyVal) → Bool
  | [] => true
  | (_, v) :: kvs => noDec v && noDecDict kvs

end

mutual

/-- Converting the decimals back to floats for display (the Fetcher's
`DecimalEncoder` does `float(obj)` on every `Decimal`; `float` of the decimal
`Decimal(str(x))` rounds back to the original float `x` by the shortest-repr
guarantee, so in the model the rational value is kept). -/
def decimals_to_floats : PyVal → PyVal
  | .dec x => .float x
  | .list xs => .list (decimals_to_floatsList xs)
  | .dict kvs => .dict (decimals_to_floatsDict kvs)
  | v => v

def decimals_to_floatsList : List PyVal → List PyVal
  | [] => []
  | v :: vs => decimals_to_floats v :: decimals_to_floatsList vs

def decimals_to_floatsDict : List (String × PyVal) → List (String × PyVal)
  | [] => []
  | (k, v) :: kvs => (k, decimals_to_floats v) :: decimals_to_floatsDict kvs

end

/-- A scalar that is not a float (the `else: return obj` arm's domain). -/
def isNonFloatScalar : PyVal → Bool
  | .float _ => false
  | .list _ => false
  | .dict _ => false
  | _ => true

/-- The nested structure of the spec's decimal-conversion example. -/
def exampleNested : PyVal :=
  .dict [("a", .list [.float (1.5 : Rat), .dict [("b", .float (2.25 : Rat))]])]

end Py

namespace Detector

/-- The default of the `OUTLIER_CLASSES` environment variable. -/
def DEFAULT_OUTLIER_CLASSES_STR : String :=
  "tampering,intrusion,unauthorized_access,no_helmet,no_suit"

/-- `OUTLIER_CLASSES`: `{cls.strip().lower() for cls in s.split(',') if cls.strip()}`.
Python builds a set; only membership is ever used, so a list with `∈` is an
equivalent model. -/
def OUTLIER_CLASSES (cfgStr : String) : List String :=
  ((PyStr.splitChar ',' cfgStr).filter (fun cls => PyStr.pyStrip cls != "")).map
    (fun cls => PyStr.lower (PyStr.pyStrip cls))

/-- One entry of the endpoint's `detections` list, as the Detector reads it:
`.get('label')`, `.get('confidence', 0.0)`, `.get('bbox', [])`.  `none` models
an absent key (for `label` it also covers a JSON `null`, which `.get` returns
as `None`). -/
structure Prediction where
  label : Option String
  confidence : Option Rat
  bbox : Option (List Rat)

/-- One element of the Detector's `detected_outliers` list
(`{'class': ..., 'confidence': ..., 'box': ...}`; `class` is a Lean keyword,
stored as `cls`). -/
structure OutlierEntry where
  cls : String
  confidence : Rat
  box : List Rat

/-- The body of the detection loop (lines 139-168): skip a prediction with a
missing or falsy `label`; lowercase the label and test membership in the
outlier class set; on a match collect original-case class, confidence
(default `0.0`) and bbox (default `[]`). -/
def checkPrediction (classes : List String) (p : Prediction) : Option OutlierEntry :=
  match p.label with
  | Option.none => Option.none
  | Option.some lbl =>
    if lbl = "" then Option.none
    else if PyStr.lower lbl ∈ classes then
      Option.some { cls := lbl, confidence := p.confidence.getD 0, box := p.bbox.getD [] }
    else Option.none

/-- The whole detection loop: `detected_outliers`. -/
def detectOutliers (classes : List String) (preds : List Prediction) : List OutlierEntry :=
  preds.filterMap (checkPrediction classes)

/-- The inference result record as the Detector consumes it.  `detections` is
the list after `inference_data.get('detections', [])` and the non-list
normalization (a missing key or a non-list value both yield `[]`).
`frame_number`: outer `none` = key absent (fall back to filename parsing),
`some none` = key present holding `null` (no fallback: `.get` already
returned a value), `some (some n)` = an integer.  `processed_frame_url`:
`none` covers both an absent key and a JSON `null` (`.get` returns `None`
either way). -/
structure InferenceData where
  detections : List Prediction
  video_id : Option String
  frame_number : Option (Option Int)
  processed_frame_url : Option String

/-- One record of the triggering S3 event; `key` is the object key after
`unquote_plus`. -/
structure DetRecord where
  bucket : String
  key : String

/-- The Detector's item saved to the table (lines 207-220).  The fields
`s3ImageKey`, `timestampISO` and the float-to-decimal pass are elided /
value-preserving (see `Py.floats_to_decimals`); no claim concerns them. -/
structure DetItem where
  video_frame_timestamp : String
  timestamp : Int
  videoName : String
  frameNumber : Int
  s3Bucket : String
  s3Key : String
  presignedImageUrl : String
  outliers : List OutlierEntry
  totalDetections : Nat
  outlierCount : Nat

/-- The Detector's external collaborators.  `fetch` is
`get_object` + `json.loads` (an `.error` is a read or parse failure);
`presign` is `generate_presigned_url` (bucket, key, `ExpiresIn`); `put` is
`table.put_item`.  The SNS publish is elided: its failure is caught and only
logged, so it cannot change any modeled outcome. -/
structure DetEnv where
  fetch : String → String → Except String InferenceData
  presign : String → String → Nat → Except String String
  put : DetItem → Except String Unit

/-- The placeholder the Caller writes into `processed_frame_url`. -/
def SAGEMAKER_PLACEHOLDER : String := "N/A (Processed by SageMaker)"

/-- Line 185: the fallback image key -- note `str.replace` substitutes every
occurrence, not only the leading prefix / trailing suffix. -/
def fallbackImageKey (object_key : String) : String :=
  PyStr.pyReplace (PyStr.pyReplace object_key "inference-results/" "extracted-frames/")
    ".json" ".jpg"

/-- Lines 177-202: resolve the image URL.  The `processed_frame_url` is used
only when truthy (present, non-null, non-empty) and not the placeholder;
otherwise a presigned URL for the fallback key is generated with a 24-hour
expiry, and a presign failure stores an error string. -/
def resolveImageUrl (env : DetEnv) (bucket_name object_key : String)
    (pfu : Option String) : String :=
  if !(PyStr.pyTruthyOptStr pfu) || pfu == some SAGEMAKER_PLACEHOLDER then
    match env.presign bucket_name (fallbackImageKey object_key) 86400 with
    | .ok u => u
    | .error e => "Error generating URL: " ++ e
  else pfu.getD ""

/-- The frame number the handler settles on (line 124):
`inference_data.get('frame_number', extract_frame_number(frame_filename))`. -/
def frameNumberOf (data : InferenceData) (frame_filename : String) : Option Int :=
  match data.frame_number with
  | Option.some v => v
  | Option.none => (FrameNum.extract_frame_number_det frame_filename).map Int.ofNat

/-- Outcome of one loop iteration of the Detector's `lambda_handler`:
`skipped` = the `continue` of the key filters (not an error),
`errored` = any `error_count += 1` path (including a `put_item` failure,
caught by the outer `except`), `processedNoOutlier` = processed with no saved
event, `processedOutlier item` = processed and `item` was written to the
table. -/
inductive RecordOutcome where
  | skipped
  | errored
  | processedNoOutlier
  | processedOutlier (item : DetItem)

/-- One iteration of the Detector's `lambda_handler` loop (lines 75-299),
for an S3 record naming `bucket` and (already-decoded) `key`;
`now = int(datetime.utcnow().timestamp())`. -/
def processRecord (classes : List String) (env : DetEnv) (now : Int)
    (r : DetRecord) : RecordOutcome :=
  if !(PyStr.pyStartsWith r.key "inference-results/") then .skipped
  else if !(PyStr.pyEndsWith r.key ".json") then .skipped
  else
    match env.fetch r.bucket r.key with
    | .error _ => .errored
    | .ok data =>
      let predictions := data.detections
      let path_parts := PyStr.splitChar '/' r.key
      if path_parts.length < 3 then .errored
      else
        let video_name := data.video_id.getD (path_parts.getD (path_parts.length - 2) "")
        let frame_filename := path_parts.getD (path_parts.length - 1) ""
        match frameNumberOf data frame_filename with
        | Option.none => .errored
        | Option.some frame_number =>
          let detected := detectOutliers classes predictions
          if detected.isEmpty then .processedNoOutlier
          else
            let event_id := video_name ++ "_" ++ PyStr.pyReplace frame_filename ".json" ""
            let url := resolveImageUrl env r.bucket r.key data.processed_frame_url
            let item : DetItem :=
              { video_frame_timestamp := event_id
                timestamp := now
                videoName := video_name
                frameNumber := frame_number
                s3Bucket := r.bucket
                s3Key := r.key
                presignedImageUrl := url
                outliers := detected
                totalDetections := predictions.length
                outlierCount := detected.length }
            match env.put item with
            | .ok _ => .processedOutlier item
            | .error _ => .errored

/-- The Detector's whole batch: each record is handled independently (the
per-record `try/except` turns any failure into `errored` and continues). -/
def lambda_handler_det (classes : List String) (env : DetEnv) (now : Int)
    (records : List DetRecord) : List RecordOutcome :=
  records.map (processRecord classes env now)

end Detector

namespace Caller

/-- The drawing operations `draw_boxes` issues per kept detection, in order:
the outlined rectangle, the filled label background, the label text.  The
pixel geometry of the text background (`textbbox` + padding) and the
`f"{label} ({conf*100:.1f}%)"` formatting are elided: the operation carries
the raw label and confidence. -/
inductive DrawOp where
  | rect (box : List Rat) (color : String)
  | labelBg (box : List Rat) (color : String)
  | labelText (tlabel : String) (conf : Rat)

/-- The PIL surface as an oracle: `openImg` is `Image.open` on the raw bytes
(may fail on invalid data), `drawOp` is one `draw.rectangle`/`draw.text` call
(may fail), `save` is `image.save(..., format="JPEG")` of the image derived
from the input bytes and the performed operations, returning the JPEG bytes. -/
structure PILEnv where
  openImg : String → Except String Unit
  drawOp : DrawOp → Except String Unit
  save : String → List DrawOp → Except String String

/-- The box color (lines 60-65): substring match on the label. -/
def detColor (tlabel : String) : String :=
  if PyStr.containsSub tlabel "helmet" then "yellow"
  else if PyStr.containsSub tlabel "suit" then "orange"
  else "red"

/-- The three draw calls for one kept detection. -/
def detOps (tlabel : String) (conf : Rat) (box : List Rat) : List DrawOp :=
  let color := detColor tlabel
  [DrawOp.rect box color, DrawOp.labelBg box color, DrawOp.labelText tlabel conf]

/-- Issue a list of draw calls in order, stopping at the first failure. -/
def runOps (env : PILEnv) : List DrawOp → Except String Unit
  | [] => .ok ()
  | op :: ops =>
    match env.drawOp op with
    | .ok _ => runOps env ops
    | .error e => .error e

/-- The loop body of `draw_boxes` for one detection: `det.get('bbox')`; a
missing box or a box whose length is not 4 is skipped (`continue`), otherwise
the three draw calls are issued. -/
def drawDet (env : PILEnv) (det : Detector.Prediction) : Except String (List DrawOp) :=
  match det.bbox with
  | Option.none => .ok []
  | Option.some box =>
    if box.length ≠ 4 then .ok []
    else
      let ops := detOps (det.label.getD "unknown") (det.confidence.getD 0) box
      match runOps env ops with
      | .ok _ => .ok ops
      | .error e => .error e

/-- The whole detection loop of `draw_boxes`, accumulating the performed
operations. -/
def buildOps (env : PILEnv) : List Detector.Prediction → Except String (List DrawOp)
  | [] => .ok []
  | d :: ds =>
    match drawDet env d with
    | .error e => .error e
    | .ok ops1 =>
      match buildOps env ds with
      | .error e => .error e
      | .ok rest => .ok (ops1 ++ rest)

/-- Everything inside the `try` of `draw_boxes`: open, draw every valid box,
save to JPEG bytes. -/
def drawPipeline (env : PILEnv) (image_bytes : String)
    (dets : List Detector.Prediction) : Except String String :=
  match env.openImg image_bytes with
  | .error e => .error e
  | .ok _ =>
    match buildOps env dets with
    | .error e => .error e
    | .ok ops => env.save image_bytes ops

/-- `draw_boxes` of `SafeSite-Inference-Caller.py`: on any exception the
original input bytes are returned unchanged (lines 94-96), so the function
never raises. -/
def draw_boxes (env : PILEnv) (image_bytes : String)
    (dets : List Detector.Prediction) : String :=
  match drawPipeline env image_bytes dets with
  | .ok out => out
  | .error _ => image_bytes

/-- A detection the loop actually draws: a present box of length exactly 4
(`if not box or len(box) != 4: continue` — `None` and `[]` are falsy, and
`[]` also fails the length test). -/
def validBox (d : Detector.Prediction) : Bool :=
  match d.bbox with
  | Option.some b => b.length == 4
  | Option.none => false

/-- The draw calls the loop issues over a whole detection list, stated
independently of the oracle: every detection with a 4-element box contributes
its three calls, in order; every other detection contributes nothing. -/
def specOps : List Detector.Prediction → List DrawOp
  | [] => []
  | d :: ds =>
    (if validBox d then detOps (d.label.getD "unknown") (d.confidence.getD 0) (d.bbox.getD [])
     else [])
    ++ specOps ds

/-- Configuration of the Caller (environment variables); `none` = unset.
`outPrefixVal`/`annPrefixVal` carry the `OUTPUT_PREFIX`/`ANNOTATED_PREFIX`
values with their defaults already applied. -/
structure CallerConfig where
  endpointName : Option String
  outputBucket : Option String
  annotatedBucket : Option String
  outPrefixVal : String := "inference-results"
  annPrefixVal : String := "annotated-frames"

/-- `ANNOTATED_BUCKET = os.environ.get('ANNOTATED_BUCKET', OUTPUT_BUCKET)`. -/
def effAnnotatedBucket (cfg : CallerConfig) : Option String :=
  cfg.annotatedBucket <|> cfg.outputBucket

/-- The JSON body of one queue message after `json.loads`: either the parse
raised, or an object with the three optionally-present fields. -/
inductive MsgBody where
  | malformed
  | obj (s3_uri : Option String) (original_video_key : Option String)
      (frame_file : Option String)

/-- One SQS record: `messageId` and `body` (SQS guarantees both keys). -/
structure SQSRecord where
  messageId : String
  body : MsgBody

/-- `full_response_payload` (lines 173-182). -/
structure ResultRecord where
  frame_id : String
  video_id : String
  frame_number : Nat
  detections : List Detector.Prediction
  processed_frame_url : String
  annotated_frame_s3_uri : String
  outlier_detected : Bool

/-- The Caller's external collaborators: `s3Get` returns the raw image bytes;
`smInvoke` is `invoke_endpoint` + `json.loads` + `.get('detections', [])`
on the image bytes (the base64/JSON request wrapping is elided); `s3PutImg`
and `s3PutJson` are the two `put_object` calls. -/
structure CallerEnv where
  s3Get : String → String → Except String String
  smInvoke : String → Except String (List Detector.Prediction)
  s3PutImg : String → String → String → Except String Unit
  s3PutJson : String → String → ResultRecord → Except String Unit
  pil : PILEnv

/-- `Nat.digitChar`-based decimal rendering with explicit fuel (structural, so
it reduces in the kernel); fuel `n + 1` always suffices. -/
def natDigitsFuel : Nat → Nat → List Char
  | 0, _ => []
  | fuel + 1, n =>
    if n < 10 then [Nat.digitChar n]
    else natDigitsFuel fuel (n / 10) ++ [Nat.digitChar (n % 10)]

/-- Python `f"{n:05d}"`. -/
def pad5 (n : Nat) : String :=
  let ds := natDigitsFuel (n + 1) n
  ⟨List.replicate (5 - ds.length) '0' ++ ds⟩

/-- `os.path.basename`: everything after the last `'/'`. -/
def basename (s : String) : String :=
  (PyStr.splitChar '/' s).getLast?.getD ""

/-- One iteration of the Caller's `lambda_handler` loop (lines 110-204),
everything inside the per-record `try`; `.error` is the caught exception. -/
def processMessage (cfg : CallerConfig) (env : CallerEnv)
    (r : SQSRecord) : Except String Unit :=
  match r.body with
  | .malformed => .error "JSONDecodeError"
  | .obj s3_uri ovk ff =>
    match s3_uri with
    | Option.none => .error "KeyError: s3_uri"
    | Option.some frame_s3_path =>
      let original_video_key := ovk.getD "unknown-video"
      let frame_file := ff.getD "unknown-frame.jpg"
      let (bucket, key) := PyStr.s3UriBucketKey frame_s3_path
      if bucket == "" || key == "" then .error ("Invalid S3 URI: " ++ frame_s3_path)
      else
        match env.s3Get bucket key with
        | .error e => .error e
        | .ok image_bytes =>
          match env.smInvoke image_bytes with
          | .error e => .error e
          | .ok detections =>
            let annotated_image_bytes := draw_boxes env.pil image_bytes detections
            let original_video_name := basename original_video_key
            let cap := PyStr.stripSlashes cfg.annPrefixVal
            let annotated_key := PyStr.joinPath
              (if cap == "" then [original_video_name, frame_file]
               else [cap, original_video_name, frame_file])
            let annotatedBucketStr := (effAnnotatedBucket cfg).getD ""
            match env.s3PutImg annotatedBucketStr annotated_key annotated_image_bytes with
            | .error e => .error e
            | .ok _ =>
              let annotated_s3_uri := "s3://" ++ annotatedBucketStr ++ "/" ++ annotated_key
              let frame_number := FrameNum.extract_frame_number_caller frame_file
              let payload : ResultRecord :=
                { frame_id := original_video_name ++ "_frame_" ++ pad5 frame_number
                  video_id := original_video_name
                  frame_number := frame_number
                  detections := detections
                  processed_frame_url := "N/A (Processed by SageMaker)"
                  annotated_frame_s3_uri := annotated_s3_uri
                  outlier_detected := false }
              let frame_json := PyStr.pyReplace
                (PyStr.pyReplace frame_file ".jpg" ".json") ".png" ".json"
              let cop := PyStr.stripSlashes cfg.outPrefixVal
              let result_key := PyStr.joinPath
                (if cop == "" then [original_video_name, frame_json]
                 else [cop, original_video_name, frame_json])
              match env.s3PutJson (cfg.outputBucket.getD "") result_key payload with
              | .error e => .error e
              | .ok _ => .ok ()

/-- What the Caller's `lambda_handler` returns when it does not raise. -/
inductive CallerResult where
  | batchFailures (ids : List String)
  | success (processed : Nat)

/-- The Caller's `lambda_handler` (lines 98-217): a missing
`SAGEMAKER_ENDPOINT_NAME`/`OUTPUT_BUCKET` raises `ValueError` at entry;
otherwise every record is processed in order, a failing record only appends
its `messageId` to `failed_messages`, and the handler returns the failure
list (if nonempty) or a success summary. -/
def lambda_handler_caller (cfg : CallerConfig) (env : CallerEnv)
    (records : List SQSRecord) : Except String CallerResult :=
  if !(PyStr.pyTruthyOptStr cfg.endpointName) || !(PyStr.pyTruthyOptStr cfg.outputBucket) then
    .error "Missing env vars: SAGEMAKER_ENDPOINT_NAME and/or OUTPUT_BUCKET"
  else
    let acc := records.foldl
      (fun (acc : Nat × List String) r =>
        match processMessage cfg env r with
        | .ok _ => (acc.1 + 1, acc.2)
        | .error _ => (acc.1, acc.2 ++ [r.messageId]))
      (0, [])
    if acc.2.isEmpty then .ok (.success acc.1) else .ok (.batchFailures acc.2)

/-- Specification-side restatement of the failure list (from the spec's
"returns the set of message identifiers that failed"): the `messageId` of
exactly the records whose processing fails, in batch order. -/
def specFailedIds (cfg : CallerConfig) (env : CallerEnv)
    (records : List SQSRecord) : List String :=
  (records.filter fun r => !(processMessage cfg env r).isOk).map (·.messageId)

/-- Specification-side count of the records whose processing succeeds. -/
def specOkCount (cfg : CallerConfig) (env : CallerEnv)
    (records : List SQSRecord) : Nat :=
  records.countP fun r => (processMessage cfg env r).isOk

end Caller

namespace Fetcher

/-- One item of the outlier-event table as the Fetcher touches it.  Items are
loose dicts; `none` models an absent attribute.  Attributes the handler never
reads are elided. -/
structure FetchItem where
  videoName : Option String
  timestamp : Option Int
  annotated_frame_s3_uri : Option String
  s3Bucket : Option String
  s3ImageKey : Option String
  presignedAnnotatedImageUrl : Option String
  presignedImageUrl : Option String

/-- The Fetcher's collaborators: the table contents (in storage scan order)
and `generate_presigned_url` (an `.error` is the raised exception). -/
structure FetchEnv where
  table : List FetchItem
  presign : String → String → Nat → Except String String

/-- `table.scan(Limit=limit, FilterExpression=filt)`: DynamoDB evaluates at
most `Limit` items in storage order and then applies the filter; a
non-positive `Limit` is rejected by the SDK (a raised `ParamValidationError`).
Pagination is irrelevant: the handler reads `response['Items']` once. -/
def scanTable (env : FetchEnv) (limit : Int) (filt : FetchItem → Bool) :
    Except String (List FetchItem) :=
  if limit < 1 then .error "ParamValidationError: Limit must be at least 1"
  else .ok ((env.table.take limit.toNat).filter filt)

/-- `parse_s3_uri` of `SafeSite-fetch-outlier.py`: bucket and key of an
`s3://bucket/key` URI, `(None, None)` (here `none`) when either is empty. -/
def parse_s3_uri (uri : String) : Option (String × String) :=
  let bk := PyStr.s3UriBucketKey uri
  if bk.1 == "" || bk.2 == "" then Option.none else Option.some bk

/-- `regenerate_presigned_url`: a presign failure is caught inside the helper
and yields `None`, never an exception. -/
def regenerate_presigned_url (env : FetchEnv) (bucket image_key : String)
    (expiration : Nat := 3600) : Option String :=
  match env.presign bucket image_key expiration with
  | .ok url => Option.some url
  | .error _ => Option.none

/-- Lines 97-105: overwrite `presignedAnnotatedImageUrl` when the
`annotated_frame_s3_uri` reference is truthy, parses, and presigning
succeeds; otherwise leave the item as it is. -/
def regenAnnotated (env : FetchEnv) (it : FetchItem) : FetchItem :=
  match it.annotated_frame_s3_uri with
  | Option.some u =>
    if u == "" then it
    else
      match parse_s3_uri u with
      | Option.some bk =>
        match regenerate_presigned_url env bk.1 bk.2 with
        | Option.some url => { it with presignedAnnotatedImageUrl := Option.some url }
        | Option.none => it
      | Option.none => it
  | Option.none => it

/-- Lines 107-114: overwrite `presignedImageUrl` when both `s3Bucket` and
`s3ImageKey` are truthy and presigning succeeds; otherwise leave the item as
it is. -/
def regenOriginal (env : FetchEnv) (it : FetchItem) : FetchItem :=
  match it.s3Bucket, it.s3ImageKey with
  | Option.some b, Option.some k =>
    if b == "" || k == "" then it
    else
      match regenerate_presigned_url env b k with
      | Option.some url => { it with presignedImageUrl := Option.some url }
      | Option.none => it
  | _, _ => it

/-- The per-item URL-regeneration step (lines 95-114): the annotated link
first, then the original link. -/
def regenItem (env : FetchEnv) (it : FetchItem) : FetchItem :=
  regenOriginal env (regenAnnotated env it)

/-- Sort key: `x.get('timestamp', 0)`. -/
def tsKey (it : FetchItem) : Int := it.timestamp.getD 0

/-- Stable insertion into a descending-sorted list: the inserted element
(which originally precedes every element of the list) passes only the
strictly-greater keys and stops in front of the first equal-or-smaller key,
so equal-key elements keep their original relative order --
`list.sort(key=..., reverse=True)` is a stable descending sort. -/
def insertDesc (x : FetchItem) : List FetchItem → List FetchItem
  | [] => [x]
  | y :: ys => if tsKey x < tsKey y then y :: insertDesc x ys else x :: y :: ys

/-- `items.sort(key=lambda x: x.get('timestamp', 0), reverse=True)`. -/
def sortDesc : List FetchItem → List FetchItem
  | [] => []
  | x :: xs => insertDesc x (sortDesc xs)

/-- The query parameters (`queryStringParameters`); values are strings. -/
structure QueryParams where
  limit : Option String
  videoName : Option String
  startDate : Option String
  endDate : Option String

/-- The incoming API-Gateway-style request. -/
structure FetchEvent where
  httpMethod : Option String
  queryStringParameters : Option QueryParams

/-- What the response body's JSON carries. -/
inductive RespBody where
  | empty
  | success (count : Nat) (events : List FetchItem)
  | failure (error : String)

/-- The permissive CORS headers attached to every response. -/
def corsHeaders : List (String × String) :=
  [("Content-Type", "application/json"),
   ("Access-Control-Allow-Origin", "*"),
   ("Access-Control-Allow-Headers",
    "Content-Type,X-Amz-Date,Authorization,X-Api-Key,X-Amz-Security-Token"),
   ("Access-Control-Allow-Methods", "GET,OPTIONS")]

structure FetchResponse where
  statusCode : Nat
  headers : List (String × String)
  body : RespBody

/-- The default `queryStringParameters` (the `or {}` of line 65). -/
def emptyParams : QueryParams :=
  { limit := Option.none, videoName := Option.none
    startDate := Option.none, endDate := Option.none }

/-- `limit = int(params.get('limit', 50))` (line 66); `int` of the absent
default `50` is `50`. -/
def parseLimit (params : QueryParams) : Except String Int :=
  match params.limit with
  | Option.none => .ok 50
  | Option.some s =>
    match PyStr.pyIntOfStr s with
    | Option.some n => .ok n
    | Option.none => .error ("invalid literal for int() with base 10: " ++ s)

/-- The truthiness-guarded `int(...)` of `startDate`/`endDate`
(lines 79-85): an absent or empty value contributes no filter; a non-integer
value raises. -/
def parseOptDate (v : Option String) : Except String (Option Int) :=
  match v with
  | Option.none => .ok Option.none
  | Option.some s =>
    if s == "" then .ok Option.none
    else
      match PyStr.pyIntOfStr s with
      | Option.some n => .ok (Option.some n)
      | Option.none => .error ("invalid literal for int() with base 10: " ++ s)

/-- The truthiness guard of `if video_name:` (line 76). -/
def effVideoName (params : QueryParams) : Option String :=
  match params.videoName with
  | Option.some vn => if vn == "" then Option.none else Option.some vn
  | Option.none => Option.none

/-- The combined `FilterExpression` (lines 74-88) as a predicate: equality on
`videoName` (when given), inclusive bounds on `timestamp` (when given); a
DynamoDB comparison on an absent attribute is false. -/
def buildFilter (video_name : Option String) (start_i end_i : Option Int) :
    FetchItem → Bool := fun it =>
  (match video_name with
   | Option.some vn => it.videoName == Option.some vn
   | Option.none => true)
  && (match start_i with
      | Option.some n =>
        match it.timestamp with
        | Option.some t => decide (n ≤ t)
        | Option.none => false
      | Option.none => true)
  && (match end_i with
      | Option.some n =>
        match it.timestamp with
        | Option.some t => decide (t ≤ n)
        | Option.none => false
      | Option.none => true)

/-- Everything inside the Fetcher's `try` (lines 64-118): parse the
parameters (`int(...)` may raise), build the filter (each filter is applied
only when its parameter is truthy), scan, regenerate the per-item links,
sort descending. -/
def fetchCore (env : FetchEnv) (ev : FetchEvent) : Except String (List FetchItem) :=
  let params := ev.queryStringParameters.getD emptyParams
  match parseLimit params with
  | .error e => .error e
  | .ok limit =>
    match parseOptDate params.startDate with
    | .error e => .error e
    | .ok start_i =>
      match parseOptDate params.endDate with
      | .error e => .error e
      | .ok end_i =>
        match scanTable env limit (buildFilter (effVideoName params) start_i end_i) with
        | .error e => .error e
        | .ok items => .ok (sortDesc (items.map (regenItem env)))

/-- `lambda_handler` of `SafeSite-fetch-outlier.py`: an `OPTIONS` request
short-circuits to an empty 200; otherwise the `try` body runs and any caught
exception becomes a 500 failure envelope.  The handler always returns a
response and never raises. -/
def lambda_handler_fetch (env : FetchEnv) (ev : FetchEvent) : FetchResponse :=
  if ev.httpMethod == Option.some "OPTIONS" then
    { statusCode := 200, headers := corsHeaders, body := .empty }
  else
    match fetchCore env ev with
    | .ok items =>
      { statusCode := 200, headers := corsHeaders
        body := .success items.length items }
    | .error e =>
      { statusCode := 500, headers := corsHeaders, body := .failure e }

/-- The envelope kind of a response body (`0` empty, `1` success, `2`
failure), for stating that something cannot influence which envelope is
returned. -/
def bodyTag : RespBody → Nat
  | .empty => 0
  | .success _ _ => 1
  | .failure _ => 2

/-- The `count` field of a success envelope. -/
def bodyCount : RespBody → Option Nat
  | .success c _ => Option.some c
  | _ => Option.none

end Fetcher

namespace Fix

/-- The configured outlier class set under the default configuration. -/
def CLS : List String := Detector.OUTLIER_CLASSES Detector.DEFAULT_OUTLIER_CLASSES_STR

/-- A detection whose normalized label is an outlier class. -/
def predTamper : Detector.Prediction :=
  { label := Option.some "Tampering", confidence := Option.some 1
    bbox := Option.some [10, 20, 110, 120] }

def dataTamper : Detector.InferenceData :=
  { detections := [predTamper], video_id := Option.some "vid1"
    frame_number := Option.some (Option.some 7), processed_frame_url := Option.none }

def recFrame7 : Detector.DetRecord :=
  { bucket := "b", key := "inference-results/vid1/frame_0007.json" }

def envTamper : Detector.DetEnv :=
  { fetch := fun _ _ => .ok dataTamper
    presign := fun _ _ _ => .ok "https://signed.example/frame_0007.jpg"
    put := fun _ => .ok () }

/-- A record whose JSON lacks `frame_number` and whose filename has no
`frame<digits>` token. -/
def dataNoFrame : Detector.InferenceData :=
  { detections := [], video_id := Option.none
    frame_number := Option.none, processed_frame_url := Option.none }

def recNoFrame : Detector.DetRecord :=
  { bucket := "b", key := "inference-results/vid1/noframe.json" }

def envNoFrame : Detector.DetEnv :=
  { fetch := fun _ _ => .ok dataNoFrame
    presign := fun _ _ _ => .ok "https://signed.example/img"
    put := fun _ => .ok () }

/-- An inference record whose `processed_frame_url` is present but empty. -/
def dataEmptyPfu : Detector.InferenceData :=
  { detections := [predTamper], video_id := Option.some "vid1"
    frame_number := Option.some (Option.some 7)
    processed_frame_url := Option.some "" }

def envEmptyPfu : Detector.DetEnv :=
  { fetch := fun _ _ => .ok dataEmptyPfu
    presign := fun _ _ _ => .ok "FRESH-URL"
    put := fun _ => .ok () }

/-- The item the Detector writes for `dataEmptyPfu` / `recFrame7`. -/
def itemEmptyPfu : Detector.DetItem :=
  { video_frame_timestamp := "vid1_frame_0007"
    timestamp := 0
    videoName := "vid1"
    frameNumber := 7
    s3Bucket := "b"
    s3Key := "inference-results/vid1/frame_0007.json"
    presignedImageUrl := "FRESH-URL"
    outliers := [{ cls := "Tampering", confidence := 1, box := [10, 20, 110, 120] }]
    totalDetections := 1
    outlierCount := 1 }

/-- An inference record carrying a usable `processed_frame_url`. -/
def dataWithPfu : Detector.InferenceData :=
  { detections := [predTamper], video_id := Option.some "vid1"
    frame_number := Option.some (Option.some 7)
    processed_frame_url := Option.some "https://api.example/pf.jpg" }

def envWithPfu : Detector.DetEnv :=
  { fetch := fun _ _ => .ok dataWithPfu
    presign := fun _ _ _ => .ok "FRESH-URL"
    put := fun _ => .ok () }

/-- A detection whose label is present but empty (falsy). -/
def pEmptyLabel : Detector.Prediction :=
  { label := Option.some "", confidence := Option.some 1, bbox := Option.none }

/-- A matching detection with `confidence` and `bbox` absent. -/
def pTamperDefaults : Detector.Prediction :=
  { label := Option.some "tampering", confidence := Option.none, bbox := Option.none }

/-- A PIL oracle on which nothing fails. -/
def pilOk : Caller.PILEnv :=
  { openImg := fun _ => .ok ()
    drawOp := fun _ => .ok ()
    save := fun b _ => .ok ("JPEG:" ++ b) }

/-- A PIL oracle whose drawing calls fail. -/
def pilDrawFail : Caller.PILEnv :=
  { openImg := fun _ => .ok ()
    drawOp := fun _ => .error "draw failed"
    save := fun b _ => .ok ("JPEG:" ++ b) }

def cfgCaller : Caller.CallerConfig :=
  { endpointName := Option.some "yolo-endpoint", outputBucket := Option.some "out"
    annotatedBucket := Option.none }

def envCaller : Caller.CallerEnv :=
  { s3Get := fun _ _ => .ok "IMGBYTES"
    smInvoke := fun _ => .ok []
    s3PutImg := fun _ _ _ => .ok ()
    s3PutJson := fun _ _ _ => .ok ()
    pil := pilOk }

def rMalformed : Caller.SQSRecord := { messageId := "m1", body := .malformed }

def rGood : Caller.SQSRecord :=
  { messageId := "m2"
    body := .obj (Option.some "s3://bkt/frames/f1.jpg") (Option.some "vid1.mp4")
      (Option.some "f1.jpg") }

def rNoUri : Caller.SQSRecord :=
  { messageId := "m3", body := .obj Option.none Option.none Option.none }

/-- A detection with a well-formed 4-element box. -/
def detValid : Detector.Prediction :=
  { label := Option.some "no_helmet", confidence := Option.some 1
    bbox := Option.some [0, 0, 10, 10] }

/-- A detection with no box at all. -/
def detNoBox : Detector.Prediction :=
  { label := Option.some "no_suit", confidence := Option.some 1, bbox := Option.none }

/-- A detection with a malformed (2-element) box. -/
def detShortBox : Detector.Prediction :=
  { label := Option.some "person", confidence := Option.some 1
    bbox := Option.some [1, 2] }

/-- A stored event item holding stale presigned links and a live
`annotated_frame_s3_uri` reference. -/
def itemAnnStale : Fetcher.FetchItem :=
  { videoName := Option.some "vid1", timestamp := Option.some 100
    annotated_frame_s3_uri := Option.some "s3://ab/ann/f1.jpg"
    s3Bucket := Option.some "b", s3ImageKey := Option.some "k"
    presignedAnnotatedImageUrl := Option.some "stale-annotated"
    presignedImageUrl := Option.some "stale-original" }

/-- A Fetcher environment whose presign call always raises. -/
def envPresignFail : Fetcher.FetchEnv :=
  { table := [itemAnnStale], presign := fun _ _ _ => .error "boom" }

def evGet : Fetcher.FetchEvent :=
  { httpMethod := Option.some "GET", queryStringParameters := Option.none }

def evOpt : Fetcher.FetchEvent :=
  { httpMethod := Option.some "OPTIONS", queryStringParameters := Option.none }

def evBadLimit : Fetcher.FetchEvent :=
  { httpMethod := Option.some "GET"
    queryStringParameters := Option.some
      { limit := Option.some "abc", videoName := Option.none
        startDate := Option.none, endDate := Option.none } }

/-- A table item for a different video. -/
def itemOther : Fetcher.FetchItem :=
  { videoName := Option.some "other", timestamp := Option.some 5
    annotated_frame_s3_uri := Option.none, s3Bucket := Option.none
    s3ImageKey := Option.none, presignedAnnotatedImageUrl := Option.none
    presignedImageUrl := Option.none }

def envOther : Fetcher.FetchEnv :=
  { table := [itemOther], presign := fun _ _ _ => .ok "u" }

/-- A query whose `videoName` parameter is present but empty. -/
def evEmptyVn : Fetcher.FetchEvent :=
  { httpMethod := Option.some "GET"
    queryStringParameters := Option.some
      { limit := Option.some "10", videoName := Option.some ""
        startDate := Option.none, endDate := Option.none } }

def itemVid1a : Fetcher.FetchItem :=
  { videoName := Option.some "vid1", timestamp := Option.some 5
    annotated_frame_s3_uri := Option.none, s3Bucket := Option.none
    s3ImageKey := Option.none, presignedAnnotatedImageUrl := Option.none
    presignedImageUrl := Option.none }

def itemVid1b : Fetcher.FetchItem :=
  { videoName := Option.some "vid1", timestamp := Option.some 7
    annotated_frame_s3_uri := Option.none, s3Bucket := Option.none
    s3ImageKey := Option.none, presignedAnnotatedImageUrl := Option.none
    presignedImageUrl := Option.none }

def envVid1 : Fetcher.FetchEnv :=
  { table := [itemVid1a, itemOther, itemVid1b], presign := fun _ _ _ => .ok "u" }

/-- A `videoName=vid1&limit=10` query. -/
def evVid1 : Fetcher.FetchEvent :=
  { httpMethod := Option.some "GET"
    queryStringParameters := Option.some
      { limit := Option.some "10", videoName := Option.some "vid1"
        startDate := Option.none, endDate := Option.none } }

/-- A stored item with a stale original link and no annotated reference. -/
def itemStale : Fetcher.FetchItem :=
  { videoName := Option.some "vid1", timestamp := Option.some 9
    annotated_frame_s3_uri := Option.none
    s3Bucket := Option.some "b", s3ImageKey := Option.some "k"
    presignedAnnotatedImageUrl := Option.none
    presignedImageUrl := Option.some "stale-url" }

def envStale : Fetcher.FetchEnv :=
  { table := [itemStale], presign := fun _ _ _ => .error "boom" }

/-- A presign oracle that always succeeds with a recognizable fresh link. -/
def envFreshLinks : Fetcher.FetchEnv :=
  { table := [itemAnnStale], presign := fun _ _ _ => .ok "fresh-link" }

end Fix

namespace Py

mutual

theorem noFloat_ftd (v : PyVal) : noFloat (floats_to_decimals v) = true := by
  cases v with
  | list xs => simpa [floats_to_decimals, noFloat] using noFloat_ftdList xs
  | dict kvs => simpa [floats_to_decimals, noFloat] using noFloat_ftdDict kvs
  | float x => rfl
  | dec x => rfl
  | int n => rfl
  | str s => rfl
  | bool b => rfl
  | none => rfl

theorem noFloat_ftdList (xs : List PyVal) : noFloatList (floats_to_decimalsList xs) = true := by
  cases xs with
  | nil => rfl
  | cons v vs =>
    simp [floats_to_decimalsList, noFloatList, noFloat_ftd v, noFloat_ftdList vs]

theorem noFloat_ftdDict (kvs : List (String × PyVal)) :
    noFloatDict (floats_to_decimalsDict kvs) = true := by
  cases kvs with
  | nil => rfl
  | cons kv kvs' =>
    cases kv with
    | mk k v =>
      simp [floats_to_decimalsDict, noFloatDict, noFloat_ftd v, noFloat_ftdDict kvs']

end

mutual

theorem dtf_ftd (v : PyVal) (h : noDec v = true) :
    decimals_to_floats (floats_to_decimals v) = v := by
  cases v with
  | list xs =>
    have hx : noDecList xs = true := by simpa [noDec] using h
    simp [floats_to_decimals, decimals_to_floats, dtf_ftdList xs hx]
  | dict kvs =>
    have hx : noDecDict kvs = true := by simpa [noDec] using h
    simp [floats_to_decimals, decimals_to_floats, dtf_ftdDict kvs hx]
  | float x => rfl
  | dec x => simp [noDec] at h
  | int n => rfl
  | str s => rfl
  | bool b => rfl
  | none => rfl

theorem dtf_ftdList (xs : List PyVal) (h : noDecList xs = true) :
    decimals_to_floatsList (floats_to_decimalsList xs) = xs := by
  cases xs with
  | nil => rfl
  | cons v vs =>
    have h1 : noDec v = true := by
      have := h; simp [noDecList, Bool.and_eq_true] at this; exact this.1
    have h2 : noDecList vs = true := by
      have := h; simp [noDecList, Bool.and_eq_true] at this; exact this.2
    simp [floats_to_decimalsList, decimals_to_floatsList, dtf_ftd v h1, dtf_ftdList vs h2]

theorem dtf_ftdDict (kvs : List (String × PyVal)) (h : noDecDict kvs = true) :
    decimals_to_floatsDict (floats_to_decimalsDict kvs) = kvs := by
  cases kvs with
  | nil => rfl
  | cons kv kvs' =>
    cases kv with
    | mk k v =>
      have h1 : noDec v = true := by
        have := h; simp [noDecDict, Bool.and_eq_true] at this; exact this.1
      have h2 : noDecDict kvs' = true := by
        have := h; simp [noDecDict, Bool.and_eq_true] at this; exact this.2
      simp [floats_to_decimalsDict, decimals_to_floatsDict, dtf_ftd v h1, dtf_ftdDict kvs' h2]

end

end Py

/-- C2: the Detector's float-to-decimal conversion recurses into mapping and
sequence values, replaces every float by the exact decimal of its shortest
repr, and passes every other type through unchanged; the output contains no
native float, and converting every produced decimal back to a float for
display recovers the original value (on records that, like every record the
Detector builds, contain no pre-existing decimals). -/
theorem floats_to_decimals_no_float_and_roundtrip (v : Py.PyVal) :
    Py.noFloat (Py.floats_to_decimals v) = true
    ∧ (Py.isNonFloatScalar v = true → Py.floats_to_decimals v = v)
    ∧ (Py.noDec v = true →
        Py.decimals_to_floats (Py.floats_to_decimals v) = v) := by
  refine ⟨Py.noFloat_ftd v, ?_, fun h => Py.dtf_ftd v h⟩
  intro h
  cases v with
  | float x => simp [Py.isNonFloatScalar] at h
  | list xs => simp [Py.isNonFloatScalar] at h
  | dict kvs => simp [Py.isNonFloatScalar] at h
  | dec x => rfl
  | int n => rfl
  | str s => rfl
  | bool b => rfl
  | none => rfl

/-- C2 witness: the spec's own example `{"a": [1.5, {"b": 2.25}]}` converts
with no floats left and round-trips, and a non-float scalar passes through. -/
theorem floats_to_decimals_no_float_and_roundtrip_witness :
    Py.noFloat (Py.floats_to_decimals Py.exampleNested) = true
    ∧ Py.decimals_to_floats (Py.floats_to_decimals Py.exampleNested) = Py.exampleNested
    ∧ Py.floats_to_decimals (Py.PyVal.str "x") = Py.PyVal.str "x" :=
  ⟨(floats_to_decimals_no_float_and_roundtrip Py.exampleNested).1,
   (floats_to_decimals_no_float_and_roundtrip Py.exampleNested).2.2 rfl,
   (floats_to_decimals_no_float_and_roundtrip (Py.PyVal.str "x")).2.1 rfl⟩

namespace FrameNum

theorem takeWhile_digits_append (run post : List Char)
    (h1 : ∀ c ∈ run, c.isDigit = true)
    (h2 : ∀ d, post.head? = some d → d.isDigit = false) :
    (run ++ post).takeWhile Char.isDigit = run := by
  induction run with
  | nil =>
    cases post with
    | nil => rfl
    | cons d ds => simp [List.takeWhile_cons, h2 d rfl]
  | cons c cs ih =>
    have hc : c.isDigit = true := h1 c (by simp)
    simp [List.takeWhile_cons, hc, ih (fun c' hc' => h1 c' (by simp [hc']))]

theorem firstDigitRun_spec (pre run post : List Char)
    (hpre : ∀ c ∈ pre, c.isDigit = false) (hrun : run ≠ [])
    (hdig : ∀ c ∈ run, c.isDigit = true)
    (hpost : ∀ d, post.head? = some d → d.isDigit = false) :
    firstDigitRun (pre ++ (run ++ post)) = some run := by
  induction pre with
  | nil =>
    cases run with
    | nil => exact absurd rfl hrun
    | cons d ds =>
      have hd : d.isDigit = true := hdig d (by simp)
      simp only [List.nil_append, List.cons_append, firstDigitRun, hd, if_true]
      rw [show ds.append post = ds ++ post from rfl,
        takeWhile_digits_append ds post (fun c hc => hdig c (by simp [hc])) hpost]
  | cons c cs ih =>
    have hc : c.isDigit = false := hpre c (by simp)
    simp only [List.cons_append, firstDigitRun, hc, Bool.false_eq_true, if_false]
    exact ih (fun c' h' => hpre c' (by simp [h']))

theorem firstDigitRun_none (l : List Char) (h : ∀ c ∈ l, c.isDigit = false) :
    firstDigitRun l = none := by
  induction l with
  | nil => rfl
  | cons c cs ih =>
    simp only [firstDigitRun, h c (by simp), Bool.false_eq_true, if_false]
    exact ih fun c' h' => h c' (by simp [h'])

theorem frameTokenAt_cons (f r a m e : Char) (rest : List Char) :
    frameTokenAt (f :: r :: a :: m :: e :: rest) =
      if f.toLower = 'f' && r.toLower = 'r' && a.toLower = 'a'
          && m.toLower = 'm' && e.toLower = 'e' then
        (match rest with
        | [] => none
        | c :: cs =>
          if c = '_' || c = '-' then
            match cs with
            | [] => none
            | d :: ds =>
              if d.isDigit then some (d :: ds.takeWhile Char.isDigit) else none
          else if c.isDigit then some (c :: cs.takeWhile Char.isDigit)
          else none)
      else none := rfl

theorem takeWhile_digits_self (ds : List Char) (h : ∀ c ∈ ds, c.isDigit = true) :
    ds.takeWhile Char.isDigit = ds := by
  induction ds with
  | nil => rfl
  | cons c cs ih =>
    simp [List.takeWhile_cons, h c (by simp), ih (fun c' h' => h c' (by simp [h']))]

theorem frameTokenAt_none (l : List Char) (h : ∀ c ∈ l, c.isDigit = false) :
    frameTokenAt l = none := by
  obtain _ | ⟨f, _ | ⟨r, _ | ⟨a, _ | ⟨m, _ | ⟨e, rest⟩⟩⟩⟩⟩ := l
  · rfl
  · rfl
  · rfl
  · rfl
  · rfl
  · rw [frameTokenAt_cons]
    by_cases hcond : (f.toLower = 'f' && r.toLower = 'r' && a.toLower = 'a'
        && m.toLower = 'm' && e.toLower = 'e') = true
    · rw [if_pos hcond]
      cases rest with
      | nil => rfl
      | cons c cs =>
        have hc : c.isDigit = false := h c (by simp)
        show (if c = '_' || c = '-' then _ else _) = _
        by_cases hsep : (c = '_' || c = '-') = true
        · rw [if_pos hsep]
          cases cs with
          | nil => rfl
          | cons d ds =>
            have hd : d.isDigit = false := h d (by simp)
            show (if d.isDigit then _ else _) = _
            rw [if_neg (by simp [hd])]
        · rw [if_neg hsep, if_neg (by simp [hc])]
    · rw [if_neg hcond]

theorem frameSearch_none (l : List Char) (h : ∀ c ∈ l, c.isDigit = false) :
    frameSearch l = none := by
  induction l with
  | nil => rfl
  | cons c cs ih =>
    have h1 : frameTokenAt (c :: cs) = none := frameTokenAt_none _ h
    simp only [frameSearch, h1]
    exact ih fun c' h' => h c' (by simp [h'])

theorem frameTokenAt_frame_underscore (d : Char) (ds : List Char)
    (hd : d.isDigit = true) (hall : ∀ c ∈ ds, c.isDigit = true) :
    frameTokenAt ('f' :: 'r' :: 'a' :: 'm' :: 'e' :: '_' :: d :: ds) = some (d :: ds) := by
  rw [frameTokenAt_cons, if_pos (by decide)]
  show (if ('_' = '_' || '_' = '-') then _ else _) = _
  rw [if_pos (by decide)]
  show (if d.isDigit then _ else _) = _
  rw [if_pos hd, takeWhile_digits_self ds hall]

theorem digit_not_sep (c : Char) (h : c.isDigit = true) :
    (c = '_' || c = '-') = false := by
  cases hc : (c = '_' || c = '-') with
  | false => rfl
  | true =>
    have hor : c = '_' ∨ c = '-' := by simpa using hc
    rcases hor with rfl | rfl
    · exact absurd h (by decide)
    · exact absurd h (by decide)

theorem head_dropWhile_not (p : Char → Bool) (l : List Char) :
    ∀ x, (l.dropWhile p).head? = some x → p x = false := by
  induction l with
  | nil => intro x hx; simp [List.dropWhile] at hx
  | cons c cs ih =>
    intro x hx
    by_cases hc : p c = true
    · rw [List.dropWhile_cons, if_pos hc] at hx
      exact ih x hx
    · rw [List.dropWhile_cons, if_neg hc] at hx
      rw [List.head?_cons] at hx
      injection hx with hx
      subst hx
      cases hpc : p c with
      | false => rfl
      | true => exact absurd hpc hc

/-- The anchored pattern match: a case-insensitive `frame`, then either an
immediate digit or one `'_'`/`'-'` separator and a digit, captures exactly
the maximal digit run at that position. -/
theorem frameTokenAt_capture (f r a m e : Char) (sep run post : List Char)
    (hf : f.toLower = 'f') (hr : r.toLower = 'r') (ha : a.toLower = 'a')
    (hm : m.toLower = 'm') (he : e.toLower = 'e')
    (hsep : sep = [] ∨ sep = ['_'] ∨ sep = ['-'])
    (hrun : run ≠ []) (hdig : ∀ c ∈ run, c.isDigit = true)
    (hpost : ∀ d, post.head? = some d → d.isDigit = false) :
    frameTokenAt (f :: r :: a :: m :: e :: (sep ++ (run ++ post))) = some run := by
  have hcond : (f.toLower = 'f' && r.toLower = 'r' && a.toLower = 'a'
      && m.toLower = 'm' && e.toLower = 'e') = true := by
    simp [hf, hr, ha, hm, he]
  obtain ⟨d, ds, rfl⟩ : ∃ d ds, run = d :: ds := by
    cases run with
    | nil => exact absurd rfl hrun
    | cons d ds => exact ⟨d, ds, rfl⟩
  have hd : d.isDigit = true := hdig d (by simp)
  have htk : (ds ++ post).takeWhile Char.isDigit = ds :=
    takeWhile_digits_append ds post (fun c hc => hdig c (by simp [hc])) hpost
  rcases hsep with rfl | rfl | rfl
  · rw [frameTokenAt_cons, if_pos hcond]
    show (if d = '_' || d = '-' then _ else _) = _
    rw [digit_not_sep d hd]
    rw [if_neg (show ¬(false = true) by simp)]
    rw [if_pos hd, show ds.append post = ds ++ post from rfl, htk]
  · rw [frameTokenAt_cons, if_pos hcond]
    show (if ('_' = '_' || '_' = '-') then _ else _) = _
    rw [if_pos (by decide)]
    show (if d.isDigit then _ else _) = _
    rw [if_pos hd, show ds.append post = ds ++ post from rfl, htk]
  · rw [frameTokenAt_cons, if_pos hcond]
    show (if ('-' = '_' || '-' = '-') then _ else _) = _
    rw [if_pos (by decide)]
    show (if d.isDigit then _ else _) = _
    rw [if_pos hd, show ds.append post = ds ++ post from rfl, htk]

/-- Soundness: whenever the anchored matcher succeeds, the list really does
begin with the pattern described by `FrameTokenHead`. -/
theorem frameTokenAt_sound (l ds : List Char) (h : frameTokenAt l = some ds) :
    FrameTokenHead l := by
  unfold frameTokenAt at h
  split at h
  · rename_i f r a m e rest
    split at h
    · rename_i hcond
      simp only [Bool.and_eq_true, decide_eq_true_eq] at hcond
      obtain ⟨⟨⟨⟨hf, hr⟩, ha⟩, hm⟩, he⟩ := hcond
      split at h
      · exact Option.noConfusion h
      · rename_i c cs
        split at h
        · rename_i hsepc
          split at h
          · exact Option.noConfusion h
          · rename_i d ds'
            split at h
            · rename_i hd
              have hor : c = '_' ∨ c = '-' := by simpa using hsepc
              rcases hor with rfl | rfl
              · exact ⟨f, r, a, m, e, ['_'], d, ds', rfl, hf, hr, ha, hm, he,
                  Or.inr (Or.inl rfl), hd⟩
              · exact ⟨f, r, a, m, e, ['-'], d, ds', rfl, hf, hr, ha, hm, he,
                  Or.inr (Or.inr rfl), hd⟩
            · exact Option.noConfusion h
        · rename_i hsepc
          split at h
          · rename_i hcd
            exact ⟨f, r, a, m, e, [], c, cs, rfl, hf, hr, ha, hm, he, Or.inl rfl, hcd⟩
          · exact Option.noConfusion h
    · exact Option.noConfusion h
  · exact Option.noConfusion h

/-- Completeness together with soundness: the anchored matcher fails exactly
when the pattern `frame[_-]?(\d+)` does not match at the head of the list. -/
theorem frameTokenAt_eq_none_iff (l : List Char) :
    frameTokenAt l = none ↔ ¬ FrameTokenHead l := by
  constructor
  · intro hnone hhead
    obtain ⟨f, r, a, m, e, sep, d, rest, hl, hf, hr, ha, hm, he, hsep, hd⟩ := hhead
    have hdr : d :: rest =
        (d :: rest.takeWhile Char.isDigit) ++ rest.dropWhile Char.isDigit := by
      rw [List.cons_append, List.takeWhile_append_dropWhile]
    have hcap := frameTokenAt_capture f r a m e sep
      (d :: rest.takeWhile Char.isDigit) (rest.dropWhile Char.isDigit)
      hf hr ha hm he hsep (by simp)
      (by
        intro c hc
        rcases List.mem_cons.mp hc with rfl | hc
        · exact hd
        · exact List.mem_takeWhile_imp hc)
      (fun x hx => head_dropWhile_not Char.isDigit rest x hx)
    rw [hl, hdr] at hnone
    rw [hcap] at hnone
    exact Option.noConfusion hnone
  · intro hno
    cases hop : frameTokenAt l with
    | none => rfl
    | some ds => exact absurd (frameTokenAt_sound l ds hop) hno

/-- The search fails exactly when the pattern matches at no position of the
list (even if digits occur elsewhere). -/
theorem frameSearch_eq_none_iff (l : List Char) :
    frameSearch l = none ↔ ∀ pre post, l = pre ++ post → ¬ FrameTokenHead post := by
  induction l with
  | nil =>
    constructor
    · intro _ pre post hsplit hhead
      have hpost : post = [] := (List.append_eq_nil.mp hsplit.symm).2
      subst hpost
      obtain ⟨f, r, a, m, e, sep, d, rest, hl, -⟩ := hhead
      exact List.noConfusion hl
    · intro _
      rfl
  | cons c cs ih =>
    cases hft : frameTokenAt (c :: cs) with
    | some ds =>
      apply iff_of_false
      · unfold frameSearch
        simp [hft]
      · intro hall
        exact hall [] (c :: cs) rfl (frameTokenAt_sound _ ds hft)
    | none =>
      have hls : frameSearch (c :: cs) = frameSearch cs := by
        show (match frameTokenAt (c :: cs) with
          | some ds => some ds
          | none => frameSearch cs) = frameSearch cs
        simp only [hft]
      rw [hls, ih]
      constructor
      · intro h pre post hsplit
        cases pre with
        | nil =>
          have hp : post = c :: cs := hsplit.symm
          subst hp
          exact (frameTokenAt_eq_none_iff _).mp hft
        | cons c' pre' =>
          injection hsplit with h1 h2
          exact h pre' post h2
      · intro h pre post hsplit
        exact h (c :: pre) post (by rw [List.cons_append, hsplit])

/-- At the leftmost position where the pattern matches, the search returns
the maximal digit run of that match. -/
theorem frameSearch_leftmost (pre : List Char) (f r a m e : Char)
    (sep run post : List Char)
    (hf : f.toLower = 'f') (hr : r.toLower = 'r') (ha : a.toLower = 'a')
    (hm : m.toLower = 'm') (he : e.toLower = 'e')
    (hsep : sep = [] ∨ sep = ['_'] ∨ sep = ['-'])
    (hrun : run ≠ []) (hdig : ∀ c ∈ run, c.isDigit = true)
    (hpost : ∀ d, post.head? = some d → d.isDigit = false)
    (hleft : ∀ pre₂ post₂,
      pre ++ (f :: r :: a :: m :: e :: (sep ++ (run ++ post))) = pre₂ ++ post₂ →
      pre₂.length < pre.length → ¬ FrameTokenHead post₂) :
    frameSearch (pre ++ (f :: r :: a :: m :: e :: (sep ++ (run ++ post))))
      = some run := by
  induction pre with
  | nil =>
    rw [List.nil_append]
    have hcap := frameTokenAt_capture f r a m e sep run post
      hf hr ha hm he hsep hrun hdig hpost
    unfold frameSearch
    simp [hcap]
  | cons c pre' ih =>
    have hnone : frameTokenAt
        (c :: (pre' ++ (f :: r :: a :: m :: e :: (sep ++ (run ++ post))))) = none := by
      apply (frameTokenAt_eq_none_iff _).mpr
      exact hleft [] _ rfl (by simp)
    rw [List.cons_append]
    unfold frameSearch
    simp only [hnone]
    exact ih (fun pre₂ post₂ hsplit hlen =>
      hleft (c :: pre₂) post₂ (by rw [List.cons_append, hsplit, List.cons_append])
        (Nat.succ_lt_succ hlen))

end FrameNum

/-- C4 counterexample: the filename `"img_042.json"` contains digits, yet the
Detector's extraction (which needs a literal `frame` token before the digits)
returns `None` instead of the first digit run; and on
`"v2_frame_7.json"` the two extractions disagree (first digit run is `2`,
but the Detector captures the digits after `frame_`). -/
theorem extract_frame_number_counterexample :
    ("img_042.json".data.any Char.isDigit) = true
    ∧ FrameNum.extract_frame_number_det "img_042.json" = Option.none
    ∧ FrameNum.extract_frame_number_caller "img_042.json" = 42
    ∧ FrameNum.extract_frame_number_caller "v2_frame_7.json" = 2
    ∧ FrameNum.extract_frame_number_det "v2_frame_7.json" = Option.some 7 := by
  refine ⟨by decide, by decide, by decide, by decide, by decide⟩

/-- C4 (amended): the Caller's extraction returns the integer of the first
contiguous digit run for every filename containing a digit and `0` otherwise;
the Detector's extraction follows the case-insensitive pattern
`frame[_-]?(\d+)`: it returns `None` exactly when the pattern matches at no
position of the filename (even if digits occur elsewhere), and at the
leftmost matching position — any prefix before it, any letter casing of the
`frame` token, separator `_`, `-` or none, any suffix after the digits — it
returns the maximal digit run of that match; and in the Detector's handler a
record whose JSON lacks `frame_number` and whose filename yields `None` is
counted as an error, not a skip. -/
theorem extract_frame_number_amended :
    (∀ (s : String) (pre run post : List Char),
        s.data = pre ++ run ++ post →
        (∀ c ∈ pre, c.isDigit = false) →
        run ≠ [] → (∀ c ∈ run, c.isDigit = true) →
        (∀ d, post.head? = some d → d.isDigit = false) →
        FrameNum.extract_frame_number_caller s = PyStr.digitsVal run)
    ∧ (∀ s : String, (∀ c ∈ s.data, c.isDigit = false) →
        FrameNum.extract_frame_number_caller s = 0
        ∧ FrameNum.extract_frame_number_det s = Option.none)
    ∧ (∀ s : String, FrameNum.extract_frame_number_det s = Option.none
        ↔ ¬ ∃ pre post, s.data = pre ++ post ∧ FrameNum.FrameTokenHead post)
    ∧ (∀ (s : String) (pre : List Char) (f r a m e : Char)
        (sep run post : List Char),
        s.data = pre ++ (f :: r :: a :: m :: e :: (sep ++ (run ++ post))) →
        f.toLower = 'f' → r.toLower = 'r' → a.toLower = 'a' →
        m.toLower = 'm' → e.toLower = 'e' →
        (sep = [] ∨ sep = ['_'] ∨ sep = ['-']) →
        run ≠ [] → (∀ c ∈ run, c.isDigit = true) →
        (∀ d, post.head? = some d → d.isDigit = false) →
        (∀ pre₂ post₂, s.data = pre₂ ++ post₂ → pre₂.length < pre.length →
          ¬ FrameNum.FrameTokenHead post₂) →
        FrameNum.extract_frame_number_det s = Option.some (PyStr.digitsVal run))
    ∧ (∀ (classes : List String) (env : Detector.DetEnv) (now : Int)
        (r : Detector.DetRecord) (data : Detector.InferenceData),
        PyStr.pyStartsWith r.key "inference-results/" = true →
        PyStr.pyEndsWith r.key ".json" = true →
        env.fetch r.bucket r.key = .ok data →
        3 ≤ (PyStr.splitChar '/' r.key).length →
        data.frame_number = Option.none →
        FrameNum.extract_frame_number_det
          ((PyStr.splitChar '/' r.key).getD ((PyStr.splitChar '/' r.key).length - 1) "")
          = Option.none →
        Detector.processRecord classes env now r = .errored) := by
  refine ⟨?_, ?_, ?_, ?_, ?_⟩
  · intro s pre run post hs hpre hrun hdig hpost
    unfold FrameNum.extract_frame_number_caller
    rw [hs, List.append_assoc,
      FrameNum.firstDigitRun_spec pre run post hpre hrun hdig hpost]
  · intro s h
    constructor
    · unfold FrameNum.extract_frame_number_caller
      rw [FrameNum.firstDigitRun_none s.data h]
    · unfold FrameNum.extract_frame_number_det
      rw [FrameNum.frameSearch_none s.data h]
      rfl
  · intro s
    unfold FrameNum.extract_frame_number_det
    rw [Option.map_eq_none', FrameNum.frameSearch_eq_none_iff]
    constructor
    · rintro h ⟨pre, post, hsplit, hhead⟩
      exact h pre post hsplit hhead
    · intro h pre post hsplit hhead
      exact h ⟨pre, post, hsplit, hhead⟩
  · intro s pre f r a m e sep run post hs hf hr ha hm he hsep hrun hdig hpost hleft
    unfold FrameNum.extract_frame_number_det
    rw [hs, FrameNum.frameSearch_leftmost pre f r a m e sep run post
      hf hr ha hm he hsep hrun hdig hpost
      (fun pre₂ post₂ hsplit hlen => hleft pre₂ post₂ (hs.trans hsplit) hlen)]
    rfl
  · intro classes env now r data h1 h2 h3 h4 h5 h6
    unfold Detector.processRecord
    rw [h1, h2]
    simp only [Bool.not_true, Bool.false_eq_true, if_false, h3]
    rw [if_neg (by omega)]
    unfold Detector.frameNumberOf
    rw [h5, h6]
    rfl

/-- C4 witness: concrete instances of every part of the amended statement —
including a `None` despite digits (obtained from the biconditional) and a
leftmost match with an uppercase token, `-` separator, prefix and suffix. -/
theorem extract_frame_number_amended_witness :
    FrameNum.extract_frame_number_caller "img_042.json" = 42
    ∧ FrameNum.extract_frame_number_caller "abc.json" = 0
    ∧ FrameNum.extract_frame_number_det "abc.json" = Option.none
    ∧ (¬ ∃ pre post, "img_042.json".data = pre ++ post ∧ FrameNum.FrameTokenHead post)
    ∧ FrameNum.extract_frame_number_det "vid_FRAME-0042.json" = Option.some 42
    ∧ Detector.processRecord Fix.CLS Fix.envNoFrame 0 Fix.recNoFrame = .errored := by
  obtain ⟨h1, h2, h3, h4, h5⟩ := extract_frame_number_amended
  refine ⟨?_, (h2 "abc.json" (by decide)).1, (h2 "abc.json" (by decide)).2, ?_, ?_, ?_⟩
  · have h := h1 "img_042.json" "img_".data "042".data ".json".data
      (by decide) (by decide) (by decide) (by decide)
      (by
        intro d hd
        rw [show (".json".data.head?) = Option.some '.' from rfl] at hd
        cases hd
        decide)
    rw [h]
    decide
  · exact (h3 "img_042.json").mp (by decide)
  · have h := h4 "vid_FRAME-0042.json" "vid_".data 'F' 'R' 'A' 'M' 'E' ['-']
      "0042".data ".json".data
      (by decide) (by decide) (by decide) (by decide) (by decide) (by decide)
      (Or.inr (Or.inr rfl)) (by decide) (by decide)
      (by
        intro d hd
        rw [show (".json".data.head?) = Option.some '.' from rfl] at hd
        cases hd
        decide)
      (by
        intro pre₂ post₂ hsplit hlen
        have hl4 : ("vid_".data).length = 4 := by decide
        rw [hl4] at hlen
        have hpost : post₂ = "vid_FRAME-0042.json".data.drop pre₂.length := by
          rw [hsplit, List.drop_left]
        have hcases : pre₂.length = 0 ∨ pre₂.length = 1 ∨ pre₂.length = 2
            ∨ pre₂.length = 3 := by omega
        rcases hcases with h' | h' | h' | h' <;> rw [h'] at hpost <;> subst hpost <;>
          exact (FrameNum.frameTokenAt_eq_none_iff _).mp (by decide))
    rw [h]
    decide
  · exact h5 Fix.CLS Fix.envNoFrame 0 Fix.recNoFrame Fix.dataNoFrame
      (by decide) (by decide) rfl (by decide) rfl (by decide)

namespace Detector

theorem lower_ne_empty (s : String) (h : s ≠ "") : PyStr.lower s ≠ "" := by
  intro hl
  apply h
  obtain ⟨l⟩ := s
  have hd : l.map Char.toLower = [] := congrArg String.data hl
  have hnil : l = [] := List.map_eq_nil_iff.mp hd
  subst hnil
  rfl

theorem lower_empty : PyStr.lower "" = "" := by decide

/-- The configured outlier class set never contains the empty string: the
set comprehension filters on `cls.strip()` being truthy. -/
theorem empty_not_mem_outlier_classes (cfgStr : String) :
    "" ∉ OUTLIER_CLASSES cfgStr := by
  intro hmem
  unfold OUTLIER_CLASSES at hmem
  rw [List.mem_map] at hmem
  obtain ⟨c, hc, hlow⟩ := hmem
  rw [List.mem_filter] at hc
  exact lower_ne_empty _ (bne_iff_ne.mp hc.2) hlow

/-- A prediction produces no outlier entry exactly when no present label has
its lowercased form in the configured class set.  (The direction from right
to left needs that the set contains no empty string: a present-but-empty
label is skipped by the truthiness test, and its lowercased form `""` is
never a member.) -/
theorem checkPrediction_eq_none_iff (cfgStr : String) (p : Prediction) :
    checkPrediction (OUTLIER_CLASSES cfgStr) p = Option.none
    ↔ ¬ ∃ s, p.label = Option.some s
        ∧ PyStr.lower s ∈ OUTLIER_CLASSES cfgStr := by
  cases hp : p.label with
  | none => simp [checkPrediction, hp]
  | some lbl =>
    simp only [checkPrediction, hp, Option.some.injEq]
    by_cases hempty : lbl = ""
    · subst hempty
      simp only [if_pos rfl]
      constructor
      · rintro - ⟨s, hs, hmem⟩
        rw [← hs, lower_empty] at hmem
        exact empty_not_mem_outlier_classes cfgStr hmem
      · intro _
        rfl
    · rw [if_neg hempty]
      by_cases hmem : PyStr.lower lbl ∈ OUTLIER_CLASSES cfgStr
      · rw [if_pos hmem]
        constructor
        · intro h
          exact Option.noConfusion h
        · intro h
          exact absurd ⟨lbl, rfl, hmem⟩ h
      · rw [if_neg hmem]
        constructor
        · rintro - ⟨s, hs, hm⟩
          subst hs
          exact hmem hm
        · intro _
          rfl

/-- `detected_outliers` is empty exactly when no detection matches. -/
theorem detectOutliers_isEmpty_iff (cfgStr : String) (preds : List Prediction) :
    (detectOutliers (OUTLIER_CLASSES cfgStr) preds).isEmpty = true
    ↔ ¬ ∃ p ∈ preds, ∃ s, p.label = Option.some s
        ∧ PyStr.lower s ∈ OUTLIER_CLASSES cfgStr := by
  rw [List.isEmpty_iff]
  unfold detectOutliers
  rw [List.filterMap_eq_nil_iff]
  constructor
  · rintro h ⟨p, hp, hs⟩
    exact (checkPrediction_eq_none_iff cfgStr p).mp (h p hp) hs
  · intro h p hp
    exact (checkPrediction_eq_none_iff cfgStr p).mpr (fun hex => h ⟨p, hp, hex⟩)

end Detector

/-- C1: for every batch and every record in it that reaches the outlier
check (its key passes the path filters, its JSON is readable, its frame
number resolves) and whose table write succeeds, an outlier event record is
written if and only if at least one of the record's detections has a label
whose lowercased form is an exact member of the configured outlier class
set.  Exactness and case-insensitivity are forced by the right-hand side
(`PyStr.lower s ∈ OUTLIER_CLASSES cfgStr`): a label absent from the set
never matches, substring or not, and an empty `detections` list makes the
right-hand side false, so no event is written. -/
theorem outlier_event_iff_label_match (cfgStr : String) (env : Detector.DetEnv)
    (now : Int) (records : List Detector.DetRecord) (r : Detector.DetRecord)
    (_hr : r ∈ records) (data : Detector.InferenceData)
    (h1 : PyStr.pyStartsWith r.key "inference-results/" = true)
    (h2 : PyStr.pyEndsWith r.key ".json" = true)
    (h3 : env.fetch r.bucket r.key = .ok data)
    (h4 : 3 ≤ (PyStr.splitChar '/' r.key).length)
    (h5 : Detector.frameNumberOf data
        ((PyStr.splitChar '/' r.key).getD ((PyStr.splitChar '/' r.key).length - 1) "")
      ≠ Option.none)
    (hput : ∀ it, env.put it = .ok ()) :
    (∃ item, Detector.processRecord (Detector.OUTLIER_CLASSES cfgStr) env now r
        = .processedOutlier item)
    ↔ ∃ p ∈ data.detections, ∃ s, p.label = Option.some s
        ∧ PyStr.lower s ∈ Detector.OUTLIER_CLASSES cfgStr := by
  obtain ⟨n, hn⟩ := Option.ne_none_iff_exists'.mp h5
  unfold Detector.processRecord
  rw [h1, h2]
  simp only [Bool.not_true, Bool.false_eq_true, if_false, h3]
  rw [if_neg (by omega)]
  simp only [hn]
  by_cases hdet :
      (Detector.detectOutliers (Detector.OUTLIER_CLASSES cfgStr) data.detections).isEmpty = true
  · rw [if_pos hdet]
    apply iff_of_false
    · rintro ⟨item, h⟩
      exact Detector.RecordOutcome.noConfusion h
    · exact (Detector.detectOutliers_isEmpty_iff cfgStr data.detections).mp hdet
  · rw [if_neg hdet]
    simp only [hput]
    apply iff_of_true
    · exact ⟨_, rfl⟩
    · by_contra hno
      exact hdet ((Detector.detectOutliers_isEmpty_iff cfgStr data.detections).mpr hno)

/-- C1 witness: a record with a `Tampering` detection under the default
configuration produces an event. -/
theorem outlier_event_iff_label_match_witness :
    ∃ item, Detector.processRecord Fix.CLS Fix.envTamper 0 Fix.recFrame7
      = .processedOutlier item := by
  have h := outlier_event_iff_label_match Detector.DEFAULT_OUTLIER_CLASSES_STR
    Fix.envTamper 0 [Fix.recFrame7] Fix.recFrame7 (by simp) Fix.dataTamper
    (by decide) (by decide) rfl (by decide) (by decide) (fun it => rfl)
  exact h.mpr ⟨Fix.predTamper, by simp [Fix.dataTamper], "Tampering", rfl, by decide⟩

/-- C10: a detection with an absent or falsy (empty) label is skipped -- it
is never matched against the class set and never fails the record (the skip
is a plain `continue`; `detectOutliers` is total) -- so a batch of such
detections yields no event; and a matched detection's recorded entry uses
confidence `0.0` when `confidence` is absent and `[]` when `bbox` is
absent. -/
theorem falsy_label_skip_and_defaults (classes : List String) (p : Detector.Prediction) :
    ((p.label = Option.none ∨ p.label = Option.some "") →
      Detector.checkPrediction classes p = Option.none)
    ∧ (∀ s, p.label = Option.some s → s ≠ "" → PyStr.lower s ∈ classes →
        Detector.checkPrediction classes p
          = Option.some { cls := s, confidence := p.confidence.getD 0, box := p.bbox.getD [] })
    ∧ (∀ preds : List Detector.Prediction,
        (∀ q ∈ preds, q.label = Option.none ∨ q.label = Option.some "") →
        Detector.detectOutliers classes preds = []) := by
  refine ⟨?_, ?_, ?_⟩
  · rintro (h | h) <;> simp [Detector.checkPrediction, h]
  · intro s hs hne hmem
    simp [Detector.checkPrediction, hs, hne, hmem]
  · intro preds h
    unfold Detector.detectOutliers
    apply List.filterMap_eq_nil_iff.mpr
    intro q hq
    rcases h q hq with h' | h' <;> simp [Detector.checkPrediction, h']

/-- C10 witness: an empty-label detection is skipped (also in a whole list),
and an absent-defaults match records confidence `0` and box `[]`. -/
theorem falsy_label_skip_and_defaults_witness :
    Detector.checkPrediction Fix.CLS Fix.pEmptyLabel = Option.none
    ∧ Detector.checkPrediction Fix.CLS Fix.pTamperDefaults
        = Option.some { cls := "tampering", confidence := 0, box := [] }
    ∧ Detector.detectOutliers Fix.CLS [Fix.pEmptyLabel] = [] := by
  refine ⟨(falsy_label_skip_and_defaults Fix.CLS Fix.pEmptyLabel).1 (Or.inr rfl),
    ?_, (falsy_label_skip_and_defaults Fix.CLS Fix.pEmptyLabel).2.2 [Fix.pEmptyLabel] ?_⟩
  · exact (falsy_label_skip_and_defaults Fix.CLS Fix.pTamperDefaults).2.1
      "tampering" rfl (by decide) (by decide)
  · intro q hq
    rw [List.mem_singleton] at hq
    subst hq
    exact Or.inr rfl

namespace Detector

theorem resolveImageUrl_of_truthy (env : DetEnv) (b k u : String)
    (hu1 : u ≠ "") (hu2 : u ≠ SAGEMAKER_PLACEHOLDER) :
    resolveImageUrl env b k (Option.some u) = u := by
  unfold resolveImageUrl
  rw [if_neg (by simp [PyStr.pyTruthyOptStr, hu1, hu2])]
  rfl

theorem resolveImageUrl_fallback (env : DetEnv) (b k : String)
    (pfu : Option String) (url : String)
    (h : PyStr.pyTruthyOptStr pfu = false ∨ pfu = Option.some SAGEMAKER_PLACEHOLDER)
    (hok : env.presign b (fallbackImageKey k) 86400 = .ok url) :
    resolveImageUrl env b k pfu = url := by
  unfold resolveImageUrl
  have hcond : (!(PyStr.pyTruthyOptStr pfu)
      || pfu == Option.some SAGEMAKER_PLACEHOLDER) = true := by
    rcases h with h | h
    · simp [h]
    · subst h
      simp
  rw [if_pos hcond]
  simp only [hok]

theorem resolveImageUrl_fallback_error (env : DetEnv) (b k : String)
    (pfu : Option String) (e : String)
    (h : PyStr.pyTruthyOptStr pfu = false ∨ pfu = Option.some SAGEMAKER_PLACEHOLDER)
    (herr : env.presign b (fallbackImageKey k) 86400 = .error e) :
    resolveImageUrl env b k pfu = "Error generating URL: " ++ e := by
  unfold resolveImageUrl
  have hcond : (!(PyStr.pyTruthyOptStr pfu)
      || pfu == Option.some SAGEMAKER_PLACEHOLDER) = true := by
    rcases h with h | h
    · simp [h]
    · subst h
      simp
  rw [if_pos hcond]
  simp only [herr]

end Detector

/-- C5 counterexample: a record whose `processed_frame_url` is present with
the empty string, which is not the literal placeholder, still gets a freshly
generated URL (the code tests truthiness, not mere presence), refuting the
claim that the stored URL then equals `processed_frame_url`. -/
theorem image_url_empty_string_counterexample :
    Fix.dataEmptyPfu.processed_frame_url = Option.some ""
    ∧ Option.some "" ≠ Option.some Detector.SAGEMAKER_PLACEHOLDER
    ∧ Detector.processRecord Fix.CLS Fix.envEmptyPfu 0 Fix.recFrame7
        = .processedOutlier Fix.itemEmptyPfu
    ∧ Fix.itemEmptyPfu.presignedImageUrl = "FRESH-URL" :=
  ⟨rfl, by decide, rfl, rfl⟩

/-- C5 (amended): for every outlier event the Detector writes, the stored
image URL equals the source record's `processed_frame_url` when that field is
present with a truthy (non-empty, non-null) value other than the literal
placeholder "N/A (Processed by SageMaker)"; otherwise it is the freshly
generated 24-hour link for the key obtained from the object key by replacing
every occurrence of `inference-results/` with `extracted-frames/` and every
occurrence of `.json` with `.jpg` (an `str.replace`, not a prefix/suffix
substitution), or the error string if the link generation raises.  The event
carries a single URL field, so it never carries both kinds. -/
theorem image_url_resolution_amended (cfgStr : String) (env : Detector.DetEnv)
    (now : Int) (r : Detector.DetRecord) (data : Detector.InferenceData)
    (h1 : PyStr.pyStartsWith r.key "inference-results/" = true)
    (h2 : PyStr.pyEndsWith r.key ".json" = true)
    (h3 : env.fetch r.bucket r.key = .ok data)
    (h4 : 3 ≤ (PyStr.splitChar '/' r.key).length)
    (h5 : Detector.frameNumberOf data
        ((PyStr.splitChar '/' r.key).getD ((PyStr.splitChar '/' r.key).length - 1) "")
      ≠ Option.none)
    (hput : ∀ it, env.put it = .ok ())
    (hmatch : ∃ p ∈ data.detections, ∃ s, p.label = Option.some s
        ∧ PyStr.lower s ∈ Detector.OUTLIER_CLASSES cfgStr) :
    ∃ item, Detector.processRecord (Detector.OUTLIER_CLASSES cfgStr) env now r
        = .processedOutlier item
      ∧ (∀ u, data.processed_frame_url = Option.some u → u ≠ "" →
          u ≠ Detector.SAGEMAKER_PLACEHOLDER → item.presignedImageUrl = u)
      ∧ (∀ url, (PyStr.pyTruthyOptStr data.processed_frame_url = false
            ∨ data.processed_frame_url = Option.some Detector.SAGEMAKER_PLACEHOLDER) →
          env.presign r.bucket (Detector.fallbackImageKey r.key) 86400 = .ok url →
          item.presignedImageUrl = url)
      ∧ (∀ e, (PyStr.pyTruthyOptStr data.processed_frame_url = false
            ∨ data.processed_frame_url = Option.some Detector.SAGEMAKER_PLACEHOLDER) →
          env.presign r.bucket (Detector.fallbackImageKey r.key) 86400 = .error e →
          item.presignedImageUrl = "Error generating URL: " ++ e) := by
  obtain ⟨n, hn⟩ := Option.ne_none_iff_exists'.mp h5
  have hdet : ¬ (Detector.detectOutliers (Detector.OUTLIER_CLASSES cfgStr)
      data.detections).isEmpty = true := by
    intro hempty
    exact (Detector.detectOutliers_isEmpty_iff cfgStr data.detections).mp hempty hmatch
  unfold Detector.processRecord
  rw [h1, h2]
  simp only [Bool.not_true, Bool.false_eq_true, if_false, h3]
  rw [if_neg (by omega)]
  simp only [hn]
  rw [if_neg hdet]
  simp only [hput]
  refine ⟨_, rfl, ?_, ?_, ?_⟩
  · intro u hu hu1 hu2
    show Detector.resolveImageUrl env r.bucket r.key data.processed_frame_url = u
    rw [hu]
    exact Detector.resolveImageUrl_of_truthy env r.bucket r.key u hu1 hu2
  · intro url h hok
    exact Detector.resolveImageUrl_fallback env r.bucket r.key data.processed_frame_url url h hok
  · intro e h herr
    exact Detector.resolveImageUrl_fallback_error env r.bucket r.key
      data.processed_frame_url e h herr

/-- C5 witness: a record with a usable `processed_frame_url` stores exactly
that URL. -/
theorem image_url_resolution_amended_witness :
    ∃ item, Detector.processRecord Fix.CLS Fix.envWithPfu 0 Fix.recFrame7
        = .processedOutlier item
      ∧ item.presignedImageUrl = "https://api.example/pf.jpg" := by
  obtain ⟨item, hout, hpfu, -, -⟩ := image_url_resolution_amended
    Detector.DEFAULT_OUTLIER_CLASSES_STR Fix.envWithPfu 0 Fix.recFrame7 Fix.dataWithPfu
    (by decide) (by decide) rfl (by decide) (by decide) (fun it => rfl)
    ⟨Fix.predTamper, by simp [Fix.dataWithPfu], "Tampering", rfl, by decide⟩
  exact ⟨item, hout, hpfu "https://api.example/pf.jpg" rfl (by decide) (by decide)⟩

namespace Caller

theorem fold_step_spec (cfg : CallerConfig) (env : CallerEnv)
    (records : List SQSRecord) (n : Nat) (acc : List String) :
    records.foldl
      (fun (acc : Nat × List String) r =>
        match processMessage cfg env r with
        | .ok _ => (acc.1 + 1, acc.2)
        | .error _ => (acc.1, acc.2 ++ [r.messageId]))
      (n, acc)
    = (n + specOkCount cfg env records, acc ++ specFailedIds cfg env records) := by
  induction records generalizing n acc with
  | nil => simp [specOkCount, specFailedIds]
  | cons r rs ih =>
    cases hpr : processMessage cfg env r with
    | ok u =>
      simp only [List.foldl_cons, hpr]
      rw [ih]
      unfold specOkCount specFailedIds
      simp [List.countP_cons, List.filter_cons, hpr, Except.isOk, Except.toBool]
      omega
    | error e =>
      simp only [List.foldl_cons, hpr]
      rw [ih]
      unfold specOkCount specFailedIds
      simp [List.countP_cons, List.filter_cons, hpr, Except.isOk, Except.toBool]

end Caller

/-- C3: with the required configuration present, the Caller's handler never
raises; each record is processed independently, a failure while processing
one message contributes exactly that message's `messageId` to the failure
list (in batch order) and does not stop the later messages, and the handler
returns the failure list when it is nonempty and a success summary counting
the successfully processed messages otherwise. -/
theorem caller_batch_failure_isolation (cfg : Caller.CallerConfig)
    (env : Caller.CallerEnv) (records : List Caller.SQSRecord)
    (h1 : PyStr.pyTruthyOptStr cfg.endpointName = true)
    (h2 : PyStr.pyTruthyOptStr cfg.outputBucket = true) :
    Caller.lambda_handler_caller cfg env records
      = .ok (if (Caller.specFailedIds cfg env records).isEmpty
             then .success (Caller.specOkCount cfg env records)
             else .batchFailures (Caller.specFailedIds cfg env records)) := by
  unfold Caller.lambda_handler_caller
  rw [if_neg (by simp [h1, h2])]
  simp only [Caller.fold_step_spec]
  simp
  split <;> rfl

/-- C3 witness: a malformed body and a missing `s3_uri` fail only their own
messages; the good message in between is processed. -/
theorem caller_batch_failure_isolation_witness :
    Caller.lambda_handler_caller Fix.cfgCaller Fix.envCaller
        [Fix.rMalformed, Fix.rGood, Fix.rNoUri]
      = .ok (.batchFailures ["m1", "m3"])
    ∧ Caller.processMessage Fix.cfgCaller Fix.envCaller Fix.rGood = .ok () := by
  constructor
  · rw [caller_batch_failure_isolation Fix.cfgCaller Fix.envCaller
      [Fix.rMalformed, Fix.rGood, Fix.rNoUri] (by decide) (by decide)]
    rfl
  · rfl

namespace Caller

theorem runOps_ok (env : PILEnv) (ops : List DrawOp)
    (h : ∀ op ∈ ops, env.drawOp op = .ok ()) : runOps env ops = .ok () := by
  induction ops with
  | nil => rfl
  | cons op ops ih =>
    simp only [runOps, h op (by simp)]
    exact ih fun op' h' => h op' (by simp [h'])

theorem buildOps_spec (env : PILEnv) (dets : List Detector.Prediction)
    (h : ∀ op ∈ specOps dets, env.drawOp op = .ok ()) :
    buildOps env dets = .ok (specOps dets) := by
  induction dets with
  | nil => rfl
  | cons d ds ih =>
    have hspec_cons : specOps (d :: ds)
        = (if validBox d then detOps (d.label.getD "unknown") (d.confidence.getD 0)
            (d.bbox.getD []) else []) ++ specOps ds := rfl
    by_cases hv : validBox d = true
    · obtain ⟨b, hb⟩ : ∃ b, d.bbox = Option.some b := by
        unfold validBox at hv
        cases hbb : d.bbox with
        | none => rw [hbb] at hv; cases hv
        | some b => exact ⟨b, rfl⟩
      have hb' : d.bbox.getD [] = b := by rw [hb]; rfl
      have hlen : ¬ b.length ≠ 4 := by
        unfold validBox at hv
        rw [hb] at hv
        simp at hv
        omega
      have hspec2 : specOps (d :: ds)
          = detOps (d.label.getD "unknown") (d.confidence.getD 0) b ++ specOps ds := by
        rw [hspec_cons, if_pos hv, hb']
      have hops : ∀ op ∈ detOps (d.label.getD "unknown") (d.confidence.getD 0) b,
          env.drawOp op = .ok () := by
        intro op hop
        apply h
        rw [hspec2]
        exact List.mem_append_left _ hop
      have hrest := ih fun op hop => h op (by rw [hspec2]; exact List.mem_append_right _ hop)
      have hdd : drawDet env d
          = .ok (detOps (d.label.getD "unknown") (d.confidence.getD 0) b) := by
        unfold drawDet
        simp only [hb]
        rw [if_neg hlen]
        simp only [runOps_ok env _ hops]
      simp only [buildOps, hdd, hrest]
      rw [hspec2]
    · have hv' : validBox d = false := by revert hv; cases validBox d <;> simp
      have hspec2 : specOps (d :: ds) = specOps ds := by
        rw [hspec_cons, if_neg hv, List.nil_append]
      have hrest := ih fun op hop => h op (by rw [hspec2]; exact hop)
      have hdd : drawDet env d = .ok [] := by
        unfold drawDet
        unfold validBox at hv'
        cases hbb : d.bbox with
        | none => rfl
        | some b =>
          rw [hbb] at hv'
          simp at hv'
          simp only [hbb]
          rw [if_pos hv']
      simp only [buildOps, hdd, hrest]
      rw [hspec2]
      simp

end Caller

/-- C9: the annotation function is total (its Lean embedding returns plain
bytes, mirroring the catch-all `except`): whenever some step of the pipeline
raises it returns the original input bytes unchanged; and when the image
opens and every issued draw call succeeds, the draw calls performed are
exactly those of the detections with a present 4-element box (the others are
skipped, the kept ones all drawn, in order), and the function returns the
bytes produced by the JPEG save of that annotated image. -/
theorem draw_boxes_safety (env : Caller.PILEnv) (image_bytes : String)
    (dets : List Detector.Prediction) :
    (∀ e, Caller.drawPipeline env image_bytes dets = .error e →
        Caller.draw_boxes env image_bytes dets = image_bytes)
    ∧ (env.openImg image_bytes = .ok () →
        (∀ op ∈ Caller.specOps dets, env.drawOp op = .ok ()) →
        Caller.buildOps env dets = .ok (Caller.specOps dets)
        ∧ (∀ out, env.save image_bytes (Caller.specOps dets) = .ok out →
            Caller.draw_boxes env image_bytes dets = out)
        ∧ (∀ e, env.save image_bytes (Caller.specOps dets) = .error e →
            Caller.draw_boxes env image_bytes dets = image_bytes)) := by
  constructor
  · intro e he
    unfold Caller.draw_boxes
    rw [he]
  · intro hopen hops
    have hb := Caller.buildOps_spec env dets hops
    refine ⟨hb, ?_, ?_⟩
    · intro out hsave
      unfold Caller.draw_boxes Caller.drawPipeline
      simp only [hopen, hb, hsave]
    · intro e hsave
      unfold Caller.draw_boxes Caller.drawPipeline
      simp only [hopen, hb, hsave]

/-- C9 witness: a malformed 2-element box and a missing box are skipped while
the valid detection is drawn and valid bytes come back; a drawing failure
falls back to the original bytes. -/
theorem draw_boxes_safety_witness :
    Caller.buildOps Fix.pilOk [Fix.detValid, Fix.detShortBox, Fix.detNoBox]
      = .ok (Caller.specOps [Fix.detValid, Fix.detShortBox, Fix.detNoBox])
    ∧ Caller.draw_boxes Fix.pilOk "BYTES" [Fix.detValid, Fix.detShortBox, Fix.detNoBox]
      = "JPEG:" ++ "BYTES"
    ∧ Caller.draw_boxes Fix.pilDrawFail "BYTES" [Fix.detValid] = "BYTES" := by
  obtain ⟨hok1, hok2, -⟩ :=
    (draw_boxes_safety Fix.pilOk "BYTES" [Fix.detValid, Fix.detShortBox, Fix.detNoBox]).2
      rfl (by intro op hop; rfl)
  refine ⟨hok1, hok2 ("JPEG:" ++ "BYTES") rfl, ?_⟩
  exact (draw_boxes_safety Fix.pilDrawFail "BYTES" [Fix.detValid]).1 "draw failed" rfl

namespace Fetcher

theorem mem_insertDesc (x y : FetchItem) (l : List FetchItem) :
    y ∈ insertDesc x l ↔ y = x ∨ y ∈ l := by
  induction l with
  | nil => simp [insertDesc]
  | cons z zs ih =>
    unfold insertDesc
    by_cases hc : tsKey x < tsKey z
    · rw [if_pos hc]
      simp only [List.mem_cons, ih]
      tauto
    · simp only [if_neg hc, List.mem_cons]

theorem mem_sortDesc (y : FetchItem) (l : List FetchItem) :
    y ∈ sortDesc l ↔ y ∈ l := by
  induction l with
  | nil => simp [sortDesc]
  | cons x xs ih =>
    unfold sortDesc
    rw [mem_insertDesc, ih, List.mem_cons]

theorem length_insertDesc (x : FetchItem) (l : List FetchItem) :
    (insertDesc x l).length = l.length + 1 := by
  induction l with
  | nil => rfl
  | cons z zs ih =>
    unfold insertDesc
    by_cases hc : tsKey x < tsKey z
    · rw [if_pos hc]
      simp [ih]
    · rw [if_neg hc]
      simp

theorem length_sortDesc (l : List FetchItem) : (sortDesc l).length = l.length := by
  induction l with
  | nil => rfl
  | cons x xs ih =>
    unfold sortDesc
    rw [length_insertDesc, ih]
    rfl

theorem pairwise_insertDesc (x : FetchItem) (l : List FetchItem)
    (h : l.Pairwise (fun a b => tsKey b ≤ tsKey a)) :
    (insertDesc x l).Pairwise (fun a b => tsKey b ≤ tsKey a) := by
  induction l with
  | nil => simp [insertDesc]
  | cons z zs ih =>
    unfold insertDesc
    rw [List.pairwise_cons] at h
    by_cases hc : tsKey x < tsKey z
    · rw [if_pos hc, List.pairwise_cons]
      constructor
      · intro y hy
        rcases (mem_insertDesc x y zs).mp hy with rfl | hy
        · exact le_of_lt hc
        · exact h.1 y hy
      · exact ih h.2
    · rw [if_neg hc, List.pairwise_cons]
      constructor
      · intro y hy
        rcases List.mem_cons.mp hy with rfl | hy
        · omega
        · have := h.1 y hy
          omega
      · exact List.pairwise_cons.mpr h

theorem sortDesc_sorted (l : List FetchItem) :
    (sortDesc l).Pairwise (fun a b => tsKey b ≤ tsKey a) := by
  induction l with
  | nil => simp [sortDesc]
  | cons x xs ih => exact pairwise_insertDesc x _ ih

theorem regenAnnotated_fields (env : FetchEnv) (it : FetchItem) :
    (regenAnnotated env it).videoName = it.videoName
    ∧ (regenAnnotated env it).timestamp = it.timestamp
    ∧ (regenAnnotated env it).s3Bucket = it.s3Bucket
    ∧ (regenAnnotated env it).s3ImageKey = it.s3ImageKey
    ∧ (regenAnnotated env it).presignedImageUrl = it.presignedImageUrl := by
  unfold regenAnnotated
  repeat' split
  all_goals exact ⟨rfl, rfl, rfl, rfl, rfl⟩

theorem regenOriginal_fields (env : FetchEnv) (it : FetchItem) :
    (regenOriginal env it).videoName = it.videoName
    ∧ (regenOriginal env it).timestamp = it.timestamp
    ∧ (regenOriginal env it).annotated_frame_s3_uri = it.annotated_frame_s3_uri
    ∧ (regenOriginal env it).presignedAnnotatedImageUrl = it.presignedAnnotatedImageUrl := by
  unfold regenOriginal
  repeat' split
  all_goals exact ⟨rfl, rfl, rfl, rfl⟩

theorem regenItem_preserves (env : FetchEnv) (it : FetchItem) :
    (regenItem env it).videoName = it.videoName
    ∧ (regenItem env it).timestamp = it.timestamp := by
  unfold regenItem
  obtain ⟨h1, h2, -, -, -⟩ := regenAnnotated_fields env it
  obtain ⟨g1, g2, -, -⟩ := regenOriginal_fields env (regenAnnotated env it)
  exact ⟨g1.trans h1, g2.trans h2⟩

theorem regenAnnotated_sets (env : FetchEnv) (it : FetchItem) (u : String)
    (bk : String × String) (url : String)
    (hu : it.annotated_frame_s3_uri = Option.some u) (hne : u ≠ "")
    (hparse : parse_s3_uri u = Option.some bk)
    (hok : env.presign bk.1 bk.2 3600 = .ok url) :
    regenAnnotated env it = { it with presignedAnnotatedImageUrl := Option.some url } := by
  unfold regenAnnotated
  simp only [hu]
  rw [if_neg (by simp [hne])]
  simp only [hparse]
  unfold regenerate_presigned_url
  simp only [hok]

theorem regenOriginal_sets (env : FetchEnv) (it : FetchItem) (b k url : String)
    (hb : it.s3Bucket = Option.some b) (hk : it.s3ImageKey = Option.some k)
    (hbne : b ≠ "") (hkne : k ≠ "")
    (hok : env.presign b k 3600 = .ok url) :
    regenOriginal env it = { it with presignedImageUrl := Option.some url } := by
  unfold regenOriginal
  simp only [hb, hk]
  rw [if_neg (by simp [hbne, hkne])]
  unfold regenerate_presigned_url
  simp only [hok]

theorem regenAnnotated_id_of_none (env : FetchEnv) (it : FetchItem)
    (hfail : ∀ b k, regenerate_presigned_url env b k = Option.none) :
    regenAnnotated env it = it := by
  simp only [regenAnnotated, hfail]
  repeat' split
  all_goals rfl

theorem regenOriginal_id_of_none (env : FetchEnv) (it : FetchItem)
    (hfail : ∀ b k, regenerate_presigned_url env b k = Option.none) :
    regenOriginal env it = it := by
  simp only [regenOriginal, hfail]
  repeat' split
  all_goals rfl

end Fetcher

namespace Fetcher

theorem fetchCore_ok_inversion (env : FetchEnv) (ev : FetchEvent)
    (items : List FetchItem) (h : fetchCore env ev = .ok items) :
    ∃ limit start_i end_i,
      parseLimit (ev.queryStringParameters.getD emptyParams) = .ok limit
      ∧ parseOptDate (ev.queryStringParameters.getD emptyParams).startDate = .ok start_i
      ∧ parseOptDate (ev.queryStringParameters.getD emptyParams).endDate = .ok end_i
      ∧ ¬ limit < 1
      ∧ items = sortDesc (((env.table.take limit.toNat).filter
          (buildFilter (effVideoName (ev.queryStringParameters.getD emptyParams))
            start_i end_i)).map (regenItem env)) := by
  unfold fetchCore at h
  cases hl : parseLimit (ev.queryStringParameters.getD emptyParams) with
  | error e => simp [hl] at h
  | ok limit =>
    simp only [hl] at h
    cases hs : parseOptDate (ev.queryStringParameters.getD emptyParams).startDate with
    | error e => simp [hs] at h
    | ok s =>
      simp only [hs] at h
      cases he : parseOptDate (ev.queryStringParameters.getD emptyParams).endDate with
      | error e => simp [he] at h
      | ok en =>
        simp only [he] at h
        cases hsc : scanTable env limit
            (buildFilter (effVideoName (ev.queryStringParameters.getD emptyParams)) s en) with
        | error e => simp [hsc] at h
        | ok items0 =>
          simp only [hsc] at h
          injection h with h
          unfold scanTable at hsc
          by_cases hlim : limit < 1
          · rw [if_pos hlim] at hsc
            exact Except.noConfusion hsc
          · rw [if_neg hlim] at hsc
            injection hsc with hsc
            refine ⟨limit, s, en, rfl, rfl, rfl, hlim, ?_⟩
            rw [← h, hsc]

theorem handler_success_core (env : FetchEnv) (ev : FetchEvent) (cnt : Nat)
    (events : List FetchItem)
    (hres : lambda_handler_fetch env ev
      = { statusCode := 200, headers := corsHeaders, body := .success cnt events }) :
    fetchCore env ev = .ok events ∧ cnt = events.length := by
  unfold lambda_handler_fetch at hres
  by_cases hopt : (ev.httpMethod == Option.some "OPTIONS") = true
  · rw [if_pos hopt] at hres
    have hbody := congrArg FetchResponse.body hres
    exact absurd hbody (by simp)
  · rw [if_neg hopt] at hres
    cases hcore : fetchCore env ev with
    | error e =>
      simp only [hcore] at hres
      have hsc := congrArg FetchResponse.statusCode hres
      simp at hsc
    | ok items =>
      simp only [hcore] at hres
      have hbody := congrArg FetchResponse.body hres
      injection hbody with h1 h2
      subst h2
      exact ⟨rfl, h1.symm⟩

theorem fetchCore_table_shape (env env₂ : FetchEnv) (ev : FetchEvent)
    (htab : env₂.table = env.table) :
    (∃ e, fetchCore env ev = .error e ∧ fetchCore env₂ ev = .error e)
    ∨ (∃ items items₂, fetchCore env ev = .ok items ∧ fetchCore env₂ ev = .ok items₂
        ∧ items.length = items₂.length) := by
  unfold fetchCore
  cases hl : parseLimit (ev.queryStringParameters.getD emptyParams) with
  | error e => exact Or.inl ⟨e, by simp [hl], by simp [hl]⟩
  | ok limit =>
    simp only [hl]
    cases hs : parseOptDate (ev.queryStringParameters.getD emptyParams).startDate with
    | error e => exact Or.inl ⟨e, by simp, by simp⟩
    | ok s =>
      simp only [hs]
      cases he : parseOptDate (ev.queryStringParameters.getD emptyParams).endDate with
      | error e => exact Or.inl ⟨e, by simp, by simp⟩
      | ok en =>
        simp only [he]
        unfold scanTable
        rw [htab]
        by_cases hlim : limit < 1
        · rw [if_pos hlim]
          exact Or.inl ⟨_, rfl, rfl⟩
        · rw [if_neg hlim]
          refine Or.inr ⟨_, _, rfl, rfl, ?_⟩
          rw [length_sortDesc, length_sortDesc, List.length_map, List.length_map]

end Fetcher

/-- C6 counterexample: with a table item carrying an `annotated_frame_s3_uri`
and a presign call that raises, the handler still returns a success envelope
with status 200 -- an exception during link regeneration is swallowed inside
the helper (which returns `None`), not turned into a 500 failure envelope as
the claim states. -/
theorem regen_failure_still_success_counterexample :
    Fix.envPresignFail.presign "ab" "ann/f1.jpg" 3600 = .error "boom"
    ∧ Fetcher.lambda_handler_fetch Fix.envPresignFail Fix.evGet
      = { statusCode := 200, headers := Fetcher.corsHeaders
          body := .success 1 [Fix.itemAnnStale] } :=
  ⟨rfl, rfl⟩

/-- C6 (amended): the Fetcher always returns a response envelope and never
raises; an OPTIONS request returns status 200 with the permissive CORS
headers and an empty body without touching the query parameters or the table
(the response does not depend on the environment at all); any exception
during parameter parsing or the table scan yields a `failure` body with
status 500; otherwise the body is a `success` with `count` equal to the
number of returned events.  Exceptions during link regeneration, however,
are caught inside `regenerate_presigned_url` (which returns `None`): the
presign behavior can never influence the status code, the envelope kind, or
the count. -/
theorem response_envelope_amended (env : Fetcher.FetchEnv) (ev : Fetcher.FetchEvent) :
    (ev.httpMethod = Option.some "OPTIONS" →
      Fetcher.lambda_handler_fetch env ev
        = { statusCode := 200, headers := Fetcher.corsHeaders, body := .empty }
      ∧ ∀ env₂ : Fetcher.FetchEnv,
          Fetcher.lambda_handler_fetch env ev = Fetcher.lambda_handler_fetch env₂ ev)
    ∧ (ev.httpMethod ≠ Option.some "OPTIONS" →
        (∀ e, Fetcher.fetchCore env ev = .error e →
          Fetcher.lambda_handler_fetch env ev
            = { statusCode := 500, headers := Fetcher.corsHeaders, body := .failure e })
        ∧ (∀ items, Fetcher.fetchCore env ev = .ok items →
          Fetcher.lambda_handler_fetch env ev
            = { statusCode := 200, headers := Fetcher.corsHeaders
                body := .success items.length items }))
    ∧ (∀ env₂ : Fetcher.FetchEnv, env₂.table = env.table →
        (Fetcher.lambda_handler_fetch env ev).statusCode
          = (Fetcher.lambda_handler_fetch env₂ ev).statusCode
        ∧ Fetcher.bodyTag (Fetcher.lambda_handler_fetch env ev).body
          = Fetcher.bodyTag (Fetcher.lambda_handler_fetch env₂ ev).body
        ∧ Fetcher.bodyCount (Fetcher.lambda_handler_fetch env ev).body
          = Fetcher.bodyCount (Fetcher.lambda_handler_fetch env₂ ev).body) := by
  refine ⟨?_, ?_, ?_⟩
  · intro hopt
    have hopt' : (ev.httpMethod == Option.some "OPTIONS") = true := by simp [hopt]
    constructor
    · unfold Fetcher.lambda_handler_fetch
      rw [if_pos hopt']
    · intro env₂
      unfold Fetcher.lambda_handler_fetch
      rw [if_pos hopt', if_pos hopt']
  · intro hopt
    have hopt' : ¬ (ev.httpMethod == Option.some "OPTIONS") = true := by simp [hopt]
    constructor
    · intro e he
      unfold Fetcher.lambda_handler_fetch
      rw [if_neg hopt']
      simp only [he]
    · intro items hits
      unfold Fetcher.lambda_handler_fetch
      rw [if_neg hopt']
      simp only [hits]
  · intro env₂ htab
    by_cases hopt : (ev.httpMethod == Option.some "OPTIONS") = true
    · unfold Fetcher.lambda_handler_fetch
      rw [if_pos hopt, if_pos hopt]
      exact ⟨rfl, rfl, rfl⟩
    · unfold Fetcher.lambda_handler_fetch
      rw [if_neg hopt, if_neg hopt]
      rcases Fetcher.fetchCore_table_shape env env₂ ev htab with
        ⟨e, h1, h2⟩ | ⟨its, its₂, h1, h2, hlen⟩
      · simp only [h1, h2]
        simp [Fetcher.bodyTag, Fetcher.bodyCount]
      · simp only [h1, h2]
        simp [Fetcher.bodyTag, Fetcher.bodyCount, hlen]

/-- C6 witness: the three envelope shapes at concrete requests (an OPTIONS
pre-flight, a non-integer `limit`, a plain GET with a failing presigner). -/
theorem response_envelope_amended_witness :
    Fetcher.lambda_handler_fetch Fix.envPresignFail Fix.evOpt
      = { statusCode := 200, headers := Fetcher.corsHeaders, body := .empty }
    ∧ Fetcher.lambda_handler_fetch Fix.envPresignFail Fix.evBadLimit
      = { statusCode := 500, headers := Fetcher.corsHeaders
          body := .failure ("invalid literal for int() with base 10: " ++ "abc") }
    ∧ Fetcher.lambda_handler_fetch Fix.envPresignFail Fix.evGet
      = { statusCode := 200, headers := Fetcher.corsHeaders
          body := .success [Fix.itemAnnStale].length [Fix.itemAnnStale] } := by
  refine ⟨((response_envelope_amended Fix.envPresignFail Fix.evOpt).1 rfl).1, ?_, ?_⟩
  · exact ((response_envelope_amended Fix.envPresignFail Fix.evBadLimit).2.1
      (by decide)).1 _ rfl
  · exact ((response_envelope_amended Fix.envPresignFail Fix.evGet).2.1
      (by decide)).2 [Fix.itemAnnStale] rfl

/-- C7 counterexample: a query whose `videoName` parameter is present but
empty skips the equality filter entirely (`if video_name:` is a truthiness
test), so an item with a different video name is returned, refuting the
claim for that parameter value. -/
theorem empty_video_name_counterexample :
    (Fix.evEmptyVn.queryStringParameters.map (fun qp => qp.videoName))
      = Option.some (Option.some "")
    ∧ Fetcher.lambda_handler_fetch Fix.envOther Fix.evEmptyVn
      = { statusCode := 200, headers := Fetcher.corsHeaders
          body := .success 1 [Fix.itemOther] }
    ∧ Fix.itemOther.videoName = Option.some "other"
    ∧ Option.some "other" ≠ Option.some "" :=
  ⟨rfl, rfl, rfl, by decide⟩

/-- C7 (amended): for every query carrying a non-empty `videoName` value and
a `limit` parsing to `n`, a success response returns at most `n` events,
every returned event's `videoName` equals the given value, its timestamp
lies within the inclusive `startDate`/`endDate` bounds whenever those are
given (non-empty), the reported count equals the number of returned events,
and the list is sorted by `timestamp` in descending order. -/
theorem query_filter_limit_sort_amended (env : Fetcher.FetchEnv)
    (ev : Fetcher.FetchEvent) (qp : Fetcher.QueryParams) (vn ls : String) (n : Int)
    (cnt : Nat) (events : List Fetcher.FetchItem)
    (hqp : ev.queryStringParameters = Option.some qp)
    (hvn : qp.videoName = Option.some vn) (hvn' : vn ≠ "")
    (hls : qp.limit = Option.some ls) (hn : PyStr.pyIntOfStr ls = Option.some n)
    (hres : Fetcher.lambda_handler_fetch env ev
      = { statusCode := 200, headers := Fetcher.corsHeaders, body := .success cnt events }) :
    cnt = events.length
    ∧ events.length ≤ n.toNat
    ∧ (∀ it ∈ events, it.videoName = Option.some vn)
    ∧ (∀ it ∈ events, ∀ sd si, qp.startDate = Option.some sd → sd ≠ "" →
        PyStr.pyIntOfStr sd = Option.some si →
        ∃ t, it.timestamp = Option.some t ∧ si ≤ t)
    ∧ (∀ it ∈ events, ∀ ed ei, qp.endDate = Option.some ed → ed ≠ "" →
        PyStr.pyIntOfStr ed = Option.some ei →
        ∃ t, it.timestamp = Option.some t ∧ t ≤ ei)
    ∧ events.Pairwise (fun a b => Fetcher.tsKey b ≤ Fetcher.tsKey a) := by
  obtain ⟨hcore, hcnt⟩ := Fetcher.handler_success_core env ev cnt events hres
  obtain ⟨limit, s_i, e_i, hl, hs, he, hlim, hshape⟩ :=
    Fetcher.fetchCore_ok_inversion env ev events hcore
  simp only [hqp, Option.getD_some] at hl hs he hshape
  unfold Fetcher.parseLimit at hl
  rw [hls] at hl
  simp only [hn] at hl
  injection hl with hl
  subst hl
  have heff : Fetcher.effVideoName qp = Option.some vn := by
    unfold Fetcher.effVideoName
    simp only [hvn]
    rw [if_neg (by simp [hvn'])]
  have hmemdec : ∀ it ∈ events, ∃ it0,
      Fetcher.buildFilter (Fetcher.effVideoName qp) s_i e_i it0 = true
      ∧ it = Fetcher.regenItem env it0 := by
    intro it hit
    rw [hshape, Fetcher.mem_sortDesc] at hit
    obtain ⟨it0, hit0, hreg⟩ := List.mem_map.mp hit
    exact ⟨it0, (List.mem_filter.mp hit0).2, hreg.symm⟩
  refine ⟨hcnt, ?_, ?_, ?_, ?_, ?_⟩
  · rw [hshape, Fetcher.length_sortDesc, List.length_map]
    exact le_trans (List.length_filter_le _ _) (List.length_take_le _ _)
  · intro it hit
    obtain ⟨it0, hfilt, hreg⟩ := hmemdec it hit
    unfold Fetcher.buildFilter at hfilt
    rw [Bool.and_eq_true, Bool.and_eq_true] at hfilt
    have hv := hfilt.1.1
    simp only [heff] at hv
    have hveq : it0.videoName = Option.some vn := eq_of_beq hv
    rw [hreg, (Fetcher.regenItem_preserves env it0).1, hveq]
  · intro it hit sd si hsd hsd' hsi
    obtain ⟨it0, hfilt, hreg⟩ := hmemdec it hit
    have hsv : Fetcher.parseOptDate qp.startDate = .ok (Option.some si) := by
      unfold Fetcher.parseOptDate
      simp only [hsd]
      rw [if_neg (by simp [hsd'])]
      simp only [hsi]
    rw [hs] at hsv
    injection hsv with hsv
    unfold Fetcher.buildFilter at hfilt
    rw [Bool.and_eq_true, Bool.and_eq_true] at hfilt
    have hst := hfilt.1.2
    rw [hsv] at hst
    cases ht : it0.timestamp with
    | none => simp [ht] at hst
    | some t =>
      simp only [ht] at hst
      refine ⟨t, ?_, of_decide_eq_true hst⟩
      rw [hreg, (Fetcher.regenItem_preserves env it0).2, ht]
  · intro it hit ed ei hed hed' hei
    obtain ⟨it0, hfilt, hreg⟩ := hmemdec it hit
    have hev : Fetcher.parseOptDate qp.endDate = .ok (Option.some ei) := by
      unfold Fetcher.parseOptDate
      simp only [hed]
      rw [if_neg (by simp [hed'])]
      simp only [hei]
    rw [he] at hev
    injection hev with hev
    unfold Fetcher.buildFilter at hfilt
    rw [Bool.and_eq_true, Bool.and_eq_true] at hfilt
    have hen := hfilt.2
    rw [hev] at hen
    cases ht : it0.timestamp with
    | none => simp [ht] at hen
    | some t =>
      simp only [ht] at hen
      refine ⟨t, ?_, of_decide_eq_true hen⟩
      rw [hreg, (Fetcher.regenItem_preserves env it0).2, ht]
  · rw [hshape]
    exact Fetcher.sortDesc_sorted _

/-- C7 witness: a `videoName=vid1&limit=10` query against a 3-item table
(two matching, one not) returns the two matching items newest-first, and
every part of the amended statement holds at this instance. -/
theorem query_filter_limit_sort_amended_witness :
    Fetcher.lambda_handler_fetch Fix.envVid1 Fix.evVid1
      = { statusCode := 200, headers := Fetcher.corsHeaders
          body := .success 2 [Fix.itemVid1b, Fix.itemVid1a] }
    ∧ ([Fix.itemVid1b, Fix.itemVid1a].length ≤ (10 : Int).toNat
       ∧ (∀ it ∈ [Fix.itemVid1b, Fix.itemVid1a], it.videoName = Option.some "vid1")
       ∧ List.Pairwise (fun a b => Fetcher.tsKey b ≤ Fetcher.tsKey a)
          [Fix.itemVid1b, Fix.itemVid1a]) := by
  have h := query_filter_limit_sort_amended Fix.envVid1 Fix.evVid1
    { limit := Option.some "10", videoName := Option.some "vid1"
      startDate := Option.none, endDate := Option.none }
    "vid1" "10" 10 2 [Fix.itemVid1b, Fix.itemVid1a]
    rfl rfl (by decide) rfl (by decide) rfl
  exact ⟨rfl, h.2.1, h.2.2.1, h.2.2.2.2.2⟩

/-- C8 counterexample: a stored item carrying both a bucket and an image key
together with a stale `presignedImageUrl`, queried through a Fetcher whose
presign call raises, is returned with the stored stale link — refuting the
claim that `presignedImageUrl` is a newly generated link whenever bucket and
key are present. -/
theorem stale_link_counterexample :
    Fix.itemStale.s3Bucket = Option.some "b"
    ∧ Fix.itemStale.s3ImageKey = Option.some "k"
    ∧ Fix.envStale.presign "b" "k" 3600 = .error "boom"
    ∧ Fetcher.lambda_handler_fetch Fix.envStale Fix.evGet
      = { statusCode := 200, headers := Fetcher.corsHeaders
          body := .success 1 [Fix.itemStale] }
    ∧ Fix.itemStale.presignedImageUrl = Option.some "stale-url" :=
  ⟨rfl, rfl, rfl, rfl, rfl⟩

/-- C8 (amended): every item a success response returns is the
URL-regeneration image of a stored table item; `presignedAnnotatedImageUrl`
is overwritten with a freshly generated link whenever the
`annotated_frame_s3_uri` reference is truthy, parses into a bucket and key,
and the presign call succeeds, and `presignedImageUrl` is overwritten with a
freshly generated link whenever both a truthy bucket and image key are
present and the presign call succeeds; when every presign call fails (the
helper returns `None`) the item is returned exactly as stored. -/
theorem regen_links_amended (env : Fetcher.FetchEnv) :
    (∀ ev cnt events, Fetcher.lambda_handler_fetch env ev
        = { statusCode := 200, headers := Fetcher.corsHeaders, body := .success cnt events } →
      ∀ it ∈ events, ∃ it0 ∈ env.table, it = Fetcher.regenItem env it0)
    ∧ (∀ it u bk url, it.annotated_frame_s3_uri = Option.some u → u ≠ "" →
        Fetcher.parse_s3_uri u = Option.some bk →
        env.presign bk.1 bk.2 3600 = .ok url →
        (Fetcher.regenItem env it).presignedAnnotatedImageUrl = Option.some url)
    ∧ (∀ it b k url, it.s3Bucket = Option.some b → it.s3ImageKey = Option.some k →
        b ≠ "" → k ≠ "" → env.presign b k 3600 = .ok url →
        (Fetcher.regenItem env it).presignedImageUrl = Option.some url)
    ∧ (∀ it, (∀ b k, Fetcher.regenerate_presigned_url env b k = Option.none) →
        Fetcher.regenItem env it = it) := by
  refine ⟨?_, ?_, ?_, ?_⟩
  · intro ev cnt events hres it hit
    obtain ⟨hcore, -⟩ := Fetcher.handler_success_core env ev cnt events hres
    obtain ⟨limit, s_i, e_i, -, -, -, -, hshape⟩ :=
      Fetcher.fetchCore_ok_inversion env ev events hcore
    rw [hshape, Fetcher.mem_sortDesc] at hit
    obtain ⟨it0, hit0, hreg⟩ := List.mem_map.mp hit
    refine ⟨it0, ?_, hreg.symm⟩
    exact List.take_subset _ _ (List.mem_of_mem_filter hit0)
  · intro it u bk url hu hune hparse hok
    unfold Fetcher.regenItem
    rw [Fetcher.regenAnnotated_sets env it u bk url hu hune hparse hok]
    have hfields := Fetcher.regenOriginal_fields env
      { it with presignedAnnotatedImageUrl := Option.some url }
    rw [hfields.2.2.2]
  · intro it b k url hb hk hbne hkne hok
    unfold Fetcher.regenItem
    have hfields := Fetcher.regenAnnotated_fields env it
    rw [Fetcher.regenOriginal_sets env (Fetcher.regenAnnotated env it) b k url
      (by rw [hfields.2.2.1, hb]) (by rw [hfields.2.2.2.1, hk]) hbne hkne hok]
  · intro it hfail
    unfold Fetcher.regenItem
    rw [Fetcher.regenAnnotated_id_of_none env it hfail,
      Fetcher.regenOriginal_id_of_none env it hfail]

/-- C8 witness: with a succeeding presigner both links are freshly
regenerated, and a returned item is the regeneration image of a stored
item. -/
theorem regen_links_amended_witness :
    (Fetcher.regenItem Fix.envFreshLinks Fix.itemAnnStale).presignedAnnotatedImageUrl
      = Option.some "fresh-link"
    ∧ (Fetcher.regenItem Fix.envFreshLinks Fix.itemAnnStale).presignedImageUrl
      = Option.some "fresh-link"
    ∧ ∃ it0 ∈ Fix.envStale.table, Fix.itemStale = Fetcher.regenItem Fix.envStale it0 := by
  refine ⟨?_, ?_, ?_⟩
  · exact (regen_links_amended Fix.envFreshLinks).2.1 Fix.itemAnnStale
      "s3://ab/ann/f1.jpg" ("ab", "ann/f1.jpg") "fresh-link" rfl (by decide) (by decide) rfl
  · exact (regen_links_amended Fix.envFreshLinks).2.2.1 Fix.itemAnnStale
      "b" "k" "fresh-link" rfl rfl (by decide) (by decide) rfl
  · exact (regen_links_amended Fix.envStale).1 Fix.evGet 1 [Fix.itemStale] rfl
      Fix.itemStale (by simp)
